import Mathlib

/-!
# Pomodoro Pro timer (`script.js`): timer state machine and stats persistence

A shallow embedding of the class `PomodoroProTimer` of `script.js`.

* The object's fields become the fields of the structure `PomodoroProTimer`.
  JavaScript numbers that hold whole seconds or whole counts are modelled as
  unbounded integers (`Int`), which is exact as long as they are safe integers
  (magnitude below `2 ^ 53`). `completeSessionDouble` gives the counter updates
  of `completeSession` with the rounding of double arithmetic.
* The browser is modelled by four more fields: the handles of the countdown
  intervals that are scheduled, the next fresh handle, the string stored under the key
  `pomodoroProData` of `localStorage`, and the list of observable effects
  (progress-ring updates, completion sounds and notifications, the reset sound).
  Pure text rendering (`updateDisplay`, `updateStats`, `updateModeDisplay`,
  `updateStartPauseButton`) writes to the DOM only and is left out.
* `JSON.parse`, `JSON.stringify` and `new Date().toDateString()` belong to the
  host; they are the three fields of `Host`.
-/

namespace Pomodoro

/-! ## Data model -/

/-- The three values of `currentMode`: the keys of `this.durations`. -/
inductive Mode
  | focus
  | «break»
  | longBreak
  deriving DecidableEq, Repr

/-- The object `this.durations` (seconds per mode). -/
structure Durations where
  focus : Int
  «break» : Int
  longBreak : Int
  deriving DecidableEq, Repr

/-- Lookup `this.durations[mode]`. -/
def Durations.get (d : Durations) : Mode → Int
  | .focus => d.focus
  | .break => d.break
  | .longBreak => d.longBreak

/-- Observable effects, in the order in which the code produces them. -/
inductive Effect
  /-- One call of `updateProgress`, with the `totalTime` and `timeLeft` it read. -/
  | progress (totalTime timeLeft : Int)
  /-- One call of `playNotificationSound`, with `currentMode` at the call. -/
  | notificationSound (mode : Mode)
  /-- One call of `showNotification`, with `currentMode` at the call. -/
  | showNotification (mode : Mode)
  /-- One call of `playResetSound`. -/
  | resetSound
  deriving DecidableEq, Repr

/-- The timer object together with the part of the browser it acts on. -/
structure PomodoroProTimer where
  isRunning : Bool
  currentMode : Mode
  timeLeft : Int
  totalTime : Int
  sessionCount : Int
  completedSessions : Int
  totalTimeSpent : Int
  streakCount : Int
  /-- The field `this.timerInterval`: `none` is `null`. -/
  timerInterval : Option Nat
  durations : Durations
  /-- Browser: handles of the countdown intervals (those made by `startTimer`)
  that are still scheduled. -/
  intervals : List Nat
  /-- Browser: the handle the next `setInterval` returns. -/
  nextHandle : Nat
  /-- Browser: `localStorage.getItem('pomodoroProData')`, `none` when absent. -/
  localStorage : Option String
  /-- Browser: effects produced so far, oldest first. -/
  effects : List Effect
  deriving DecidableEq, Repr

/-- Values produced by `JSON.parse`, and `undefined` for a missing property.
Numbers are the integers. -/
inductive JSVal
  | undefined
  | null
  | bool (b : Bool)
  | num (n : Int)
  | str (s : String)
  | arr (items : List JSVal)
  | obj (fields : List (String × JSVal))
  deriving Repr

/-- Errors a JavaScript call can throw here. -/
inductive JSError
  /-- Thrown by `JSON.parse` on text that is not JSON. -/
  | syntaxError
  /-- Thrown by a property read on `null` or `undefined`. -/
  | typeError
  deriving DecidableEq, Repr

/-- The host functions used by `saveData` and `loadData`. -/
structure Host where
  /-- The call `JSON.parse(text)`; `none` when it throws a `SyntaxError`. -/
  jsonParse : String → Option JSVal
  /-- The call `JSON.stringify(value)`. -/
  jsonStringify : JSVal → String
  /-- The value of `new Date().toDateString()`. -/
  today : String

/-- The four counters as `loadData` leaves them. They are `JSVal`s because
`loadData` assigns whatever the parsed record holds. -/
structure Stats where
  completedSessions : JSVal
  totalTimeSpent : JSVal
  streakCount : JSVal
  sessionCount : JSVal
  deriving Repr

/-! ## Host helpers -/

/-- The call `setInterval(callback, 1000)`: schedules a fresh handle and returns it. -/
def setInterval (t : PomodoroProTimer) : Nat × PomodoroProTimer :=
  (t.nextHandle, { t with intervals := t.intervals ++ [t.nextHandle], nextHandle := t.nextHandle + 1 })

/-- The scheduled handles after `clearInterval(handle)`; `clearInterval(null)`
and clearing a handle that is not scheduled do nothing. -/
def removeHandle (handle : Option Nat) (scheduled : List Nat) : List Nat :=
  match handle with
  | none => scheduled
  | some i => scheduled.filter (fun j => j ≠ i)

/-- The call `clearInterval(handle)`. -/
def clearInterval (handle : Option Nat) (t : PomodoroProTimer) : PomodoroProTimer :=
  { t with intervals := removeHandle handle t.intervals }

/-- Append one effect to the log. -/
def emit (e : Effect) (t : PomodoroProTimer) : PomodoroProTimer :=
  { t with effects := t.effects ++ [e] }

/-- The property read `value[key]` for a key that no prototype defines. -/
def JSVal.getProp (key : String) : JSVal → Except JSError JSVal
  | .undefined => .error .typeError
  | .null => .error .typeError
  | .obj fields => .ok ((fields.lookup key).getD .undefined)
  | _ => .ok .undefined

/-- JavaScript truthiness (`ToBoolean`). -/
def JSVal.truthy : JSVal → Bool
  | .undefined => false
  | .null => false
  | .bool b => b
  | .num n => decide (n ≠ 0)
  | .str s => decide (s ≠ "")
  | .arr _ => true
  | .obj _ => true

/-- The expression `a || b`. -/
def JSVal.or (a b : JSVal) : JSVal :=
  if a.truthy then a else b

/-- The expression `value !== text` for a string `text`. -/
def JSVal.strictNeStr (v : JSVal) (text : String) : Bool :=
  match v with
  | .str s => decide (s ≠ text)
  | _ => true

/-! ## Display -/

/-- The fraction `(totalTime - timeLeft) / totalTime` of `updateProgress`. -/
def progressFraction (totalTime timeLeft : Int) : ℚ :=
  ((totalTime - timeLeft : Int) : ℚ) / (totalTime : ℚ)

/-- The method `updateProgress`: reads `totalTime` and `timeLeft`. -/
def updateProgress (t : PomodoroProTimer) : PomodoroProTimer :=
  emit (.progress t.totalTime t.timeLeft) t

/-! ## Persistence -/

/-- The object literal `data` built by `saveData`. -/
def saveRecord (h : Host) (t : PomodoroProTimer) : JSVal :=
  .obj [("completedSessions", .num t.completedSessions),
        ("totalTimeSpent", .num t.totalTimeSpent),
        ("streakCount", .num t.streakCount),
        ("sessionCount", .num t.sessionCount),
        ("lastSaveDate", .str h.today)]

/-- The method `saveData`. -/
def saveData (h : Host) (t : PomodoroProTimer) : PomodoroProTimer :=
  { t with localStorage := some (h.jsonStringify (saveRecord h t)) }

/-- The four counters of a timer, as JavaScript values. -/
def Stats.ofTimer (t : PomodoroProTimer) : Stats :=
  { completedSessions := .num t.completedSessions
    totalTimeSpent := .num t.totalTimeSpent
    streakCount := .num t.streakCount
    sessionCount := .num t.sessionCount }

/-- The method `loadData`: the four counters after the call, or the error it
throws. A stored empty string is falsy, like an absent key. -/
def loadData (h : Host) (t : PomodoroProTimer) : Except JSError Stats :=
  match t.localStorage with
  | none => .ok (Stats.ofTimer t)
  | some savedData =>
    if savedData = "" then .ok (Stats.ofTimer t)
    else
      match h.jsonParse savedData with
      | none => .error .syntaxError
      | some data => do
        let lastSaveDate ← data.getProp "lastSaveDate"
        if lastSaveDate.strictNeStr h.today then
          pure { completedSessions := .num 0
                 totalTimeSpent := .num 0
                 streakCount := .num 0
                 sessionCount := .num 1 }
        else
          let completedSessions ← data.getProp "completedSessions"
          let totalTimeSpent ← data.getProp "totalTimeSpent"
          let streakCount ← data.getProp "streakCount"
          let sessionCount ← data.getProp "sessionCount"
          pure { completedSessions := completedSessions.or (.num 0)
                 totalTimeSpent := totalTimeSpent.or (.num 0)
                 streakCount := streakCount.or (.num 0)
                 sessionCount := sessionCount.or (.num 1) }

/-! ## Timer commands -/

/-- The method `pauseTimer`. -/
def pauseTimer (t : PomodoroProTimer) : PomodoroProTimer :=
  clearInterval t.timerInterval { t with isRunning := false }

/-- The method `setMode`. -/
def setMode (mode : Mode) (t : PomodoroProTimer) : PomodoroProTimer :=
  let t1 := { t with currentMode := mode
                     timeLeft := t.durations.get mode
                     totalTime := t.durations.get mode }
  let t2 := updateProgress t1
  if t2.isRunning then pauseTimer t2 else t2

/-- The method `toggleMode`. -/
def toggleMode (t : PomodoroProTimer) : PomodoroProTimer :=
  if t.currentMode = .focus then setMode .break t else setMode .focus t

/-- The method `resetTimer`. -/
def resetTimer (t : PomodoroProTimer) : PomodoroProTimer :=
  let t1 := pauseTimer t
  let t2 := { t1 with timeLeft := t1.durations.get t1.currentMode
                      totalTime := t1.durations.get t1.currentMode }
  emit .resetSound (updateProgress t2)

/-- The method `completeSession`, with `++` and `+=` as exact integer additions:
what the code computes as long as the counters are safe integers (see
`completeSessionDouble` for the same method in double arithmetic). -/
def completeSession (h : Host) (t : PomodoroProTimer) : PomodoroProTimer :=
  let t1 := pauseTimer t
  let t2 := emit (.showNotification t1.currentMode) (emit (.notificationSound t1.currentMode) t1)
  let t3 :=
    if t2.currentMode = .focus then
      let t4 := { t2 with completedSessions := t2.completedSessions + 1
                          streakCount := t2.streakCount + 1
                          totalTimeSpent := t2.totalTimeSpent + t2.durations.get t2.currentMode
                          sessionCount := t2.sessionCount + 1 }
      if Int.tmod t4.completedSessions 4 = 0 then setMode .longBreak t4 else setMode .break t4
    else setMode .focus t2
  saveData h t3

/-- The callback that `startTimer` passes to `setInterval`. -/
def tickCallback (h : Host) (t : PomodoroProTimer) : PomodoroProTimer :=
  let t1 := updateProgress { t with timeLeft := t.timeLeft - 1 }
  if t1.timeLeft ≤ 0 then completeSession h t1 else t1

/-- The method `startTimer`. -/
def startTimer (t : PomodoroProTimer) : PomodoroProTimer :=
  let r := setInterval { t with isRunning := true }
  { r.2 with timerInterval := some r.1 }

/-- The method `toggleTimer`. -/
def toggleTimer (t : PomodoroProTimer) : PomodoroProTimer :=
  if t.isRunning then pauseTimer t else startTimer t

/-- The browser fires the interval with handle `i`: its callback runs if the
interval is still scheduled, and nothing happens otherwise. -/
def tick (h : Host) (i : Nat) (t : PomodoroProTimer) : PomodoroProTimer :=
  if i ∈ t.intervals then tickCallback h t else t

/-- The state right after the field initialisers of the constructor and its
calls of `updateProgress`, before `loadData`; `store` is what `localStorage`
holds at that moment. -/
def PomodoroProTimer.constructor (store : Option String) : PomodoroProTimer :=
  updateProgress
    { isRunning := false
      currentMode := .focus
      timeLeft := 25 * 60
      totalTime := 25 * 60
      sessionCount := 1
      completedSessions := 0
      totalTimeSpent := 0
      streakCount := 0
      timerInterval := none
      durations := { focus := 25 * 60, «break» := 5 * 60, longBreak := 15 * 60 }
      intervals := []
      nextHandle := 0
      localStorage := store
      effects := [] }

/-- The constructed timer once `loadData` has assigned integer counters. -/
def PomodoroProTimer.withStats (t : PomodoroProTimer)
    (completedSessions totalTimeSpent streakCount sessionCount : Int) : PomodoroProTimer :=
  { t with completedSessions := completedSessions
           totalTimeSpent := totalTimeSpent
           streakCount := streakCount
           sessionCount := sessionCount }

/-- What can happen to the timer: the four commands of the user interface, the
firing of a countdown interval, and the firing of the 30-second interval that
`bindEvents` sets up to call `saveData`. -/
inductive Command
  | toggleTimer
  | resetTimer
  | setMode (mode : Mode)
  | toggleMode
  | tick (i : Nat)
  | periodicSave
  deriving DecidableEq, Repr

/-- One command or tick. -/
def step (h : Host) (t : PomodoroProTimer) : Command → PomodoroProTimer
  | .toggleTimer => toggleTimer t
  | .resetTimer => resetTimer t
  | .setMode mode => setMode mode t
  | .toggleMode => toggleMode t
  | .tick i => tick h i t
  | .periodicSave => saveData h t

/-- A sequence of commands and ticks, each handler running to completion. -/
def run (h : Host) (t : PomodoroProTimer) (cmds : List Command) : PomodoroProTimer :=
  cmds.foldl (step h) t

/-- Counts the calls of `completeSession` recorded in an effect log: each call
plays exactly one notification sound. -/
def completions (es : List Effect) : Nat :=
  es.countP (fun e => match e with | .notificationSound _ => true | _ => false)

/-- Counts the focus completions recorded in an effect log. -/
def focusCompletions (es : List Effect) : Nat :=
  es.countP (fun e => decide (e = .notificationSound .focus))

/-- The four counters `(sessionCount, completedSessions, totalTimeSpent, streakCount)`. -/
def counters (t : PomodoroProTimer) : Int × Int × Int × Int :=
  (t.sessionCount, t.completedSessions, t.totalTimeSpent, t.streakCount)

/-- What `updateProgress` needs of the values it reads: a positive `totalTime`
and `0 ≤ timeLeft ≤ totalTime`. -/
def Effect.progressOk : Effect → Prop
  | .progress totalTime timeLeft => 0 < totalTime ∧ 0 ≤ timeLeft ∧ timeLeft ≤ totalTime
  | _ => True

/-- The invariant of the timer: positive durations, an interval that belongs
to the current mode and has not run out, one scheduled interval exactly when
the timer runs, and only well-defined progress updates so far. -/
structure Inv (t : PomodoroProTimer) : Prop where
  focus_pos : 0 < t.durations.focus
  break_pos : 0 < t.durations.break
  longBreak_pos : 0 < t.durations.longBreak
  total_eq : t.totalTime = t.durations.get t.currentMode
  left_pos : 1 ≤ t.timeLeft
  left_le : t.timeLeft ≤ t.totalTime
  running : t.isRunning = true → ∃ i, t.timerInterval = some i ∧ t.intervals = [i]
  idle : t.isRunning = false → t.intervals = []
  progress_ok : ∀ e ∈ t.effects, e.progressOk

/-! ## A concrete host

A reader and writer for the part of JSON with integer numbers and the string
escapes for the quote, the backslash, the slash, newline, carriage return and
tab. It serves the worked instances below; every general statement is about an
arbitrary `Host`. -/

namespace Json

/-- Skips JSON white space. -/
def skipWs : List Char → List Char
  | c :: cs => if c = ' ' ∨ c = '\n' ∨ c = '\r' ∨ c = '\t' then skipWs cs else c :: cs
  | [] => []

/-- Reads the characters of a string up to its closing quote. -/
def readString : List Char → List Char → Option (String × List Char)
  | [], _ => none
  | '"' :: cs, acc => some (String.mk acc.reverse, cs)
  | '\\' :: '"' :: cs, acc => readString cs ('"' :: acc)
  | '\\' :: '\\' :: cs, acc => readString cs ('\\' :: acc)
  | '\\' :: '/' :: cs, acc => readString cs ('/' :: acc)
  | '\\' :: 'n' :: cs, acc => readString cs ('\n' :: acc)
  | '\\' :: 'r' :: cs, acc => readString cs ('\r' :: acc)
  | '\\' :: 't' :: cs, acc => readString cs ('\t' :: acc)
  | '\\' :: _, _ => none
  | c :: cs, acc => if c.toNat < 32 then none else readString cs (c :: acc)

/-- Reads decimal digits, accumulating their value. -/
def readDigits : List Char → Nat → Nat × List Char
  | c :: cs, n => if c.isDigit then readDigits cs (10 * n + (c.toNat - '0'.toNat)) else (n, c :: cs)
  | [], n => (n, [])

/-- Reads an unsigned integer literal without a leading zero, fraction or exponent. -/
def readNat : List Char → Option (Nat × List Char)
  | '0' :: cs =>
    match cs with
    | c :: _ => if c.isDigit ∨ c = '.' ∨ c = 'e' ∨ c = 'E' then none else some (0, cs)
    | [] => some (0, [])
  | c :: cs =>
    if c.isDigit then
      match readDigits (c :: cs) 0 with
      | (n, d :: r) => if d = '.' ∨ d = 'e' ∨ d = 'E' then none else some (n, d :: r)
      | (n, []) => some (n, [])
    else none
  | [] => none

/-- Sets a property of an object under construction; a repeated key keeps the
last value. -/
def setField (fields : List (String × JSVal)) (k : String) (v : JSVal) : List (String × JSVal) :=
  fields.filter (fun p => p.1 ≠ k) ++ [(k, v)]

mutual
/-- Reads one JSON value; the first argument bounds the nesting and length. -/
def parseValue : Nat → List Char → Option (JSVal × List Char)
  | 0, _ => none
  | fuel + 1, cs =>
    match skipWs cs with
    | 'n' :: 'u' :: 'l' :: 'l' :: r => some (.null, r)
    | 't' :: 'r' :: 'u' :: 'e' :: r => some (.bool true, r)
    | 'f' :: 'a' :: 'l' :: 's' :: 'e' :: r => some (.bool false, r)
    | '"' :: r =>
      match readString r [] with
      | some (s, r1) => some (.str s, r1)
      | none => none
    | '[' :: r =>
      match skipWs r with
      | ']' :: r1 => some (.arr [], r1)
      | r1 => parseElements fuel r1 []
    | '\x7b' :: r =>
      match skipWs r with
      | '\x7d' :: r1 => some (.obj [], r1)
      | r1 => parseMembers fuel r1 []
    | '-' :: r =>
      match readNat r with
      | some (n, r1) => some (.num (-(n : Int)), r1)
      | none => none
    | r =>
      match readNat r with
      | some (n, r1) => some (.num (n : Int), r1)
      | none => none
/-- Reads the elements of an array after its opening bracket. -/
def parseElements : Nat → List Char → List JSVal → Option (JSVal × List Char)
  | 0, _, _ => none
  | fuel + 1, cs, acc =>
    match parseValue fuel cs with
    | none => none
    | some (v, r) =>
      match skipWs r with
      | ',' :: r1 => parseElements fuel r1 (acc ++ [v])
      | ']' :: r1 => some (.arr (acc ++ [v]), r1)
      | _ => none
/-- Reads the members of an object after its opening brace. -/
def parseMembers : Nat → List Char → List (String × JSVal) → Option (JSVal × List Char)
  | 0, _, _ => none
  | fuel + 1, cs, acc =>
    match skipWs cs with
    | '"' :: r =>
      match readString r [] with
      | none => none
      | some (k, r1) =>
        match skipWs r1 with
        | ':' :: r2 =>
          match parseValue fuel r2 with
          | none => none
          | some (v, r3) =>
            match skipWs r3 with
            | ',' :: r4 => parseMembers fuel r4 (setField acc k v)
            | '\x7d' :: r4 => some (.obj (setField acc k v), r4)
            | _ => none
        | _ => none
    | _ => none
end

/-- Reads a whole text as one JSON value; `none` for text that is not JSON. -/
def parse (s : String) : Option JSVal :=
  match parseValue (s.length + 1) s.toList with
  | some (v, r) => if skipWs r = [] then some v else none
  | none => none

/-- One hexadecimal digit. -/
def hexDigit (n : Nat) : Char :=
  if n < 10 then Char.ofNat ('0'.toNat + n) else Char.ofNat ('a'.toNat + (n - 10))

/-- The escaped form of one character of a string. -/
def escapeChar (c : Char) : List Char :=
  if c = '"' then ['\\', '"']
  else if c = '\\' then ['\\', '\\']
  else if c = '\n' then ['\\', 'n']
  else if c = '\r' then ['\\', 'r']
  else if c = '\t' then ['\\', 't']
  else if c.toNat < 32 then ['\\', 'u', '0', '0', hexDigit (c.toNat / 16), hexDigit (c.toNat % 16)]
  else [c]

/-- A string literal. -/
def quote (s : String) : String :=
  String.mk ('"' :: ((s.toList.map escapeChar).flatten ++ ['"']))

/-- The decimal form of an integer. -/
def showInt (n : Int) : String :=
  match n with
  | .ofNat k => String.mk (Nat.toDigits 10 k)
  | .negSucc k => String.mk ('-' :: Nat.toDigits 10 (k + 1))

mutual
/-- Writes a value as JSON text. -/
def stringify : JSVal → String
  | .undefined => "undefined"
  | .null => "null"
  | .bool true => "true"
  | .bool false => "false"
  | .num n => showInt n
  | .str s => quote s
  | .arr items => "[" ++ stringifyItems items ++ "]"
  | .obj fields => "\x7b" ++ stringifyFields fields ++ "\x7d"
/-- Writes the elements of an array. -/
def stringifyItems : List JSVal → String
  | [] => ""
  | [v] => stringify v
  | v :: vs => stringify v ++ "," ++ stringifyItems vs
/-- Writes the members of an object. -/
def stringifyFields : List (String × JSVal) → String
  | [] => ""
  | [(k, v)] => quote k ++ ":" ++ stringify v
  | (k, v) :: fs => quote k ++ ":" ++ stringify v ++ "," ++ stringifyFields fs
end

end Json

/-- A host whose clock shows Friday 6 November 2026. -/
def refHost : Host :=
  { jsonParse := Json.parse
    jsonStringify := Json.stringify
    today := "Fri Nov 06 2026" }

/-- A timer in the middle of the day: third focus session done, idle in a break. -/
def sampleTimer : PomodoroProTimer :=
  { isRunning := false
    currentMode := .break
    timeLeft := 300
    totalTime := 300
    sessionCount := 4
    completedSessions := 3
    totalTimeSpent := 4500
    streakCount := 3
    timerInterval := some 2
    durations := { focus := 1500, «break» := 300, longBreak := 900 }
    intervals := []
    nextHandle := 3
    localStorage := none
    effects := [] }

/-- A timer configured with very short intervals (focus 2 s, break 1 s, long
break 3 s), idle at the start of its first focus interval. -/
def quickTimer : PomodoroProTimer :=
  { isRunning := false
    currentMode := .focus
    timeLeft := 2
    totalTime := 2
    sessionCount := 1
    completedSessions := 0
    totalTimeSpent := 0
    streakCount := 0
    timerInterval := none
    durations := { focus := 2, «break» := 1, longBreak := 3 }
    intervals := []
    nextHandle := 0
    localStorage := none
    effects := [] }

/-- On `quickTimer`: three focus sessions with their breaks, then the fourth
focus session up to its last second. -/
def threeSessionsAndMost : List Command :=
  [.toggleTimer, .tick 0, .tick 0, .toggleTimer, .tick 1,
   .toggleTimer, .tick 2, .tick 2, .toggleTimer, .tick 3,
   .toggleTimer, .tick 4, .tick 4, .toggleTimer, .tick 5,
   .toggleTimer, .tick 6]

/-- The states the timer can be in: those reached from the constructed timer,
with whatever integer counters `loadData` restored, by commands and ticks. -/
def Reachable (h : Host) (t : PomodoroProTimer) : Prop :=
  ∃ (store : Option String) (cs tt sk sc : Int) (cmds : List Command),
    t = run h ((PomodoroProTimer.constructor store).withStats cs tt sk sc) cmds

/-- The constructed timer, with default counters, after the user pressed Start. -/
def startedTimer : PomodoroProTimer :=
  run refHost ((PomodoroProTimer.constructor none).withStats 0 0 0 1) [.toggleTimer]

/-- A record that `saveData` wrote the day before `refHost`'s today. -/
def yesterdayRecord : String :=
  "\x7b\"completedSessions\":7,\"totalTimeSpent\":10500,\"streakCount\":7,\"sessionCount\":8,\"lastSaveDate\":\"Thu Nov 05 2026\"\x7d"

/-- The expression `data[key] || fallback` of `loadData`, for a parsed record
with the given fields; a key that is absent reads as `undefined`. -/
def restoredField (fields : List (String × JSVal)) (key : String) (fallback : JSVal) : JSVal :=
  ((fields.lookup key).getD .undefined).or fallback

/-- A record dated `refHost`'s today whose `completedSessions` is negative and
whose `sessionCount` is a string. -/
def tamperedRecord : String :=
  "\x7b\"completedSessions\":-3,\"totalTimeSpent\":4500,\"streakCount\":3,\"sessionCount\":\"abc\",\"lastSaveDate\":\"Fri Nov 06 2026\"\x7d"

/-- A focus timer paused with 900 of its 1500 seconds left. -/
def pausedTimer : PomodoroProTimer :=
  { sampleTimer with currentMode := .focus, timeLeft := 900, totalTime := 1500 }

/-- The redundancy among the counters: the streak equals the completed
sessions, the session label is one more, and the time spent is that many focus
durations. -/
def countersRedundant (t : PomodoroProTimer) : Prop :=
  t.streakCount = t.completedSessions ∧
  t.sessionCount = t.completedSessions + 1 ∧
  t.totalTimeSpent = t.completedSessions * t.durations.focus

/-- A command or tick, or a call of `completeSession` on its own. -/
inductive Action
  | command (c : Command)
  | completeSession
  deriving DecidableEq, Repr

/-- One action. -/
def act (h : Host) (t : PomodoroProTimer) : Action → PomodoroProTimer
  | .command c => step h t c
  | .completeSession => completeSession h t

/-- A sequence of actions. -/
def runActions (h : Host) (t : PomodoroProTimer) (actions : List Action) : PomodoroProTimer :=
  actions.foldl (act h) t

/-- The number of low bits an integer of magnitude `m` loses when stored in a
double: the least `s` with `m / 2 ^ s < 2 ^ 53`. The first argument bounds the
recursion. -/
def excessBits : Nat → Nat → Nat
  | 0, _ => 0
  | fuel + 1, m => if m < 2 ^ 53 then 0 else excessBits fuel (m / 2) + 1

/-- The double nearest to an integer, ties going to the even significand: the
rounding that every JavaScript arithmetic operation applies to its exact
result. Integers of magnitude up to `2 ^ 53` are exact. The exponent range is
not modelled: beyond about `1.8e308` JavaScript gives `Infinity`. -/
def toDouble (x : Int) : Int :=
  let m := x.natAbs
  let s := excessBits m m
  let q := m / 2 ^ s
  let r := m % 2 ^ s
  let q1 := if 2 ^ s < 2 * r ∨ (2 * r = 2 ^ s ∧ q % 2 = 1) then q + 1 else q
  if x < 0 then -((q1 * 2 ^ s : Nat) : Int) else ((q1 * 2 ^ s : Nat) : Int)

/-- The sum `a + b` of two JavaScript numbers that hold integers. -/
def jsAdd (a b : Int) : Int :=
  toDouble (a + b)

/-- The test `Number.isSafeInteger(x)` on an integer. -/
def isSafeInteger (x : Int) : Bool :=
  decide (x.natAbs < 2 ^ 53)

/-- The method `completeSession` with `++` and `+=` in double arithmetic. It is
`completeSession` whenever the updated counters are exact. -/
def completeSessionDouble (h : Host) (t : PomodoroProTimer) : PomodoroProTimer :=
  let t1 := pauseTimer t
  let t2 := emit (.showNotification t1.currentMode) (emit (.notificationSound t1.currentMode) t1)
  let t3 :=
    if t2.currentMode = .focus then
      let t4 := { t2 with completedSessions := jsAdd t2.completedSessions 1
                          streakCount := jsAdd t2.streakCount 1
                          totalTimeSpent := jsAdd t2.totalTimeSpent (t2.durations.get t2.currentMode)
                          sessionCount := jsAdd t2.sessionCount 1 }
      if Int.tmod t4.completedSessions 4 = 0 then setMode .longBreak t4 else setMode .break t4
    else setMode .focus t2
  saveData h t3

/-- A record dated `refHost`'s today whose `sessionCount` is `2 ^ 53`. -/
def overflowRecord : String :=
  "\x7b\"completedSessions\":3,\"totalTimeSpent\":4500,\"streakCount\":3,\"sessionCount\":9007199254740992,\"lastSaveDate\":\"Fri Nov 06 2026\"\x7d"

/-- The timer constructed over `overflowRecord`, with the counters that
`loadData` restores from it. -/
def overflowTimer : PomodoroProTimer :=
  (PomodoroProTimer.constructor (some overflowRecord)).withStats 3 4500 3 9007199254740992

/-- The progress updates logged by `n` consecutive ticks that do not reach zero,
for an interval of length `totalTime` that stands at `timeLeft`. -/
def countdownEffects (totalTime timeLeft : Int) : Nat → List Effect
  | 0 => []
  | n + 1 => .progress totalTime (timeLeft - 1) :: countdownEffects totalTime (timeLeft - 1) n

/-! ## Basic facts about the commands -/

theorem tmod_four_eq_zero_iff (k : Nat) : Int.tmod (k : Int) 4 = 0 ↔ k % 4 = 0 := by
  rw [Int.tmod_eq_emod (by omega) (by omega)]
  omega

/-- The whole effect of `setMode` in one record update. -/
theorem setMode_eq (m : Mode) (t : PomodoroProTimer) :
    setMode m t =
      { t with isRunning := false
               currentMode := m
               timeLeft := t.durations.get m
               totalTime := t.durations.get m
               intervals := if t.isRunning then removeHandle t.timerInterval t.intervals
                            else t.intervals
               effects := t.effects ++ [.progress (t.durations.get m) (t.durations.get m)] } := by
  unfold setMode
  cases hr : t.isRunning <;> simp [updateProgress, emit, pauseTimer, clearInterval, hr]

/-- The whole effect of `completeSession` on a focus interval. -/
theorem completeSession_focus_eq (h : Host) (t : PomodoroProTimer) (hm : t.currentMode = .focus) :
    completeSession h t =
      { t with isRunning := false
               currentMode := if Int.tmod (t.completedSessions + 1) 4 = 0 then .longBreak else .break
               timeLeft := t.durations.get
                 (if Int.tmod (t.completedSessions + 1) 4 = 0 then .longBreak else .break)
               totalTime := t.durations.get
                 (if Int.tmod (t.completedSessions + 1) 4 = 0 then .longBreak else .break)
               sessionCount := t.sessionCount + 1
               completedSessions := t.completedSessions + 1
               totalTimeSpent := t.totalTimeSpent + t.durations.focus
               streakCount := t.streakCount + 1
               intervals := removeHandle t.timerInterval t.intervals
               localStorage := some (h.jsonStringify (saveRecord h
                 { t with sessionCount := t.sessionCount + 1
                          completedSessions := t.completedSessions + 1
                          totalTimeSpent := t.totalTimeSpent + t.durations.focus
                          streakCount := t.streakCount + 1 }))
               effects := t.effects ++ [.notificationSound .focus, .showNotification .focus,
                 .progress
                   (t.durations.get
                     (if Int.tmod (t.completedSessions + 1) 4 = 0 then .longBreak else .break))
                   (t.durations.get
                     (if Int.tmod (t.completedSessions + 1) 4 = 0 then .longBreak else .break))] } := by
  unfold completeSession
  by_cases h4 : Int.tmod (t.completedSessions + 1) 4 = 0 <;>
    simp [pauseTimer, clearInterval, emit, hm, h4, saveData, saveRecord, setMode_eq, Durations.get]

/-- The whole effect of `completeSession` on a break or long break. -/
theorem completeSession_rest_eq (h : Host) (t : PomodoroProTimer) (hm : t.currentMode ≠ .focus) :
    completeSession h t =
      { t with isRunning := false
               currentMode := .focus
               timeLeft := t.durations.focus
               totalTime := t.durations.focus
               intervals := removeHandle t.timerInterval t.intervals
               localStorage := some (h.jsonStringify (saveRecord h t))
               effects := t.effects ++ [.notificationSound t.currentMode,
                 .showNotification t.currentMode,
                 .progress t.durations.focus t.durations.focus] } := by
  unfold completeSession
  simp [pauseTimer, clearInterval, emit, hm, saveData, saveRecord, setMode_eq, Durations.get]

theorem run_nil (h : Host) (t : PomodoroProTimer) : run h t [] = t := rfl

theorem run_cons (h : Host) (t : PomodoroProTimer) (c : Command) (cs : List Command) :
    run h t (c :: cs) = run h (step h t c) cs := rfl

theorem run_append (h : Host) (t : PomodoroProTimer) (cs ds : List Command) :
    run h t (cs ++ ds) = run h (run h t cs) ds := by
  simp [run, List.foldl_append]

theorem run_snoc (h : Host) (t : PomodoroProTimer) (cs : List Command) (c : Command) :
    run h t (cs ++ [c]) = step h (run h t cs) c := by
  simp [run, List.foldl_append]

/-- A tick that leaves time on the clock only lowers `timeLeft` and redraws the ring. -/
theorem tick_of_lt (h : Host) (i : Nat) (t : PomodoroProTimer)
    (hi : i ∈ t.intervals) (hl : 1 < t.timeLeft) :
    tick h i t = { t with timeLeft := t.timeLeft - 1
                          effects := t.effects ++ [.progress t.totalTime (t.timeLeft - 1)] } := by
  have hn : ¬ (t.timeLeft - 1 ≤ 0) := by omega
  simp [tick, hi, tickCallback, updateProgress, emit, hn]

/-- A tick that brings `timeLeft` to zero or below runs `completeSession`. -/
theorem tick_of_le (h : Host) (i : Nat) (t : PomodoroProTimer)
    (hi : i ∈ t.intervals) (hl : t.timeLeft ≤ 1) :
    tick h i t = completeSession h
      { t with timeLeft := t.timeLeft - 1
               effects := t.effects ++ [.progress t.totalTime (t.timeLeft - 1)] } := by
  have hn : t.timeLeft - 1 ≤ 0 := by omega
  simp [tick, hi, tickCallback, updateProgress, emit, hn]

/-- Firing a handle that is not scheduled does nothing. -/
theorem tick_of_not_mem (h : Host) (i : Nat) (t : PomodoroProTimer) (hi : i ∉ t.intervals) :
    tick h i t = t := by
  simp [tick, hi]

theorem run_ticks_of_not_mem (h : Host) (i : Nat) (t : PomodoroProTimer) (hi : i ∉ t.intervals)
    (n : Nat) : run h t (List.replicate n (.tick i)) = t := by
  induction n with
  | zero => rfl
  | succ n ih =>
    rw [List.replicate_succ, run_cons]
    show run h (tick h i t) _ = t
    rw [tick_of_not_mem h i t hi, ih]

theorem countdownEffects_succ (totalTime timeLeft : Int) (n : Nat) :
    countdownEffects totalTime timeLeft (n + 1) =
      countdownEffects totalTime timeLeft n ++ [.progress totalTime (timeLeft - (n + 1 : Nat))] := by
  induction n generalizing timeLeft with
  | zero => simp [countdownEffects]
  | succ n ih =>
    rw [countdownEffects, ih (timeLeft - 1)]
    simp [countdownEffects]
    ring

theorem mem_countdownEffects (totalTime timeLeft : Int) (n : Nat) (e : Effect)
    (he : e ∈ countdownEffects totalTime timeLeft n) :
    ∃ k : Nat, 1 ≤ k ∧ k ≤ n ∧ e = .progress totalTime (timeLeft - k) := by
  induction n generalizing timeLeft with
  | zero => simp [countdownEffects] at he
  | succ n ih =>
    rw [countdownEffects] at he
    rcases List.mem_cons.1 he with rfl | he
    · exact ⟨1, le_refl 1, by omega, by simp⟩
    · obtain ⟨k, hk1, hk2, rfl⟩ := ih (timeLeft - 1) he
      refine ⟨k + 1, by omega, by omega, ?_⟩
      congr 1
      push_cast
      ring

theorem completions_countdownEffects (totalTime timeLeft : Int) (n : Nat) :
    completions (countdownEffects totalTime timeLeft n) = 0 ∧
    focusCompletions (countdownEffects totalTime timeLeft n) = 0 := by
  induction n generalizing timeLeft with
  | zero => simp [countdownEffects, completions, focusCompletions]
  | succ n ih =>
    have := ih (timeLeft - 1)
    simp only [completions, focusCompletions] at this ⊢
    simp [countdownEffects, this]

/-- The first `n` ticks of an interval with more than `n` seconds left. -/
theorem run_ticks (h : Host) (i : Nat) (n : Nat) :
    ∀ t : PomodoroProTimer, i ∈ t.intervals → (n : Int) < t.timeLeft →
      run h t (List.replicate n (.tick i)) =
        { t with timeLeft := t.timeLeft - n
                 effects := t.effects ++ countdownEffects t.totalTime t.timeLeft n } := by
  induction n with
  | zero => intro t _ _; simp [run, countdownEffects]
  | succ n ih =>
    intro t hi hl
    have h1 : 1 < t.timeLeft := by push_cast at hl; omega
    rw [List.replicate_succ, run_cons]
    show run h (tick h i t) _ = _
    rw [tick_of_lt h i t hi h1, ih _ (by simpa using hi) (by push_cast at hl; simp; omega)]
    simp [countdownEffects]
    ring

/-- A whole interval: `d + 1` ticks on a clock that stands at `d + 1` end in
one call of `completeSession`, made by the last tick with `timeLeft = 0`. -/
theorem run_interval (h : Host) (i : Nat) (d : Nat) (t : PomodoroProTimer)
    (hi : i ∈ t.intervals) (hl : t.timeLeft = (d : Int) + 1) :
    run h t (List.replicate (d + 1) (.tick i)) =
      completeSession h
        { t with timeLeft := 0
                 effects := t.effects ++ countdownEffects t.totalTime t.timeLeft (d + 1) } := by
  rw [List.replicate_succ', run_snoc, run_ticks h i d t hi (by omega)]
  show tick h i _ = _
  rw [tick_of_le h i _ (by simpa using hi) (by simp; omega), countdownEffects_succ]
  have e1 : t.timeLeft - (d : Int) - 1 = 0 := by omega
  have e2 : t.timeLeft - ((d : Int) + 1) = 0 := by omega
  simp [e1, e2]

/-- The state right after Start on a freshly constructed timer. -/
theorem toggleTimer_constructor (store : Option String) :
    toggleTimer (PomodoroProTimer.constructor store) =
      { isRunning := true
        currentMode := .focus
        timeLeft := 1500
        totalTime := 1500
        sessionCount := 1
        completedSessions := 0
        totalTimeSpent := 0
        streakCount := 0
        timerInterval := some 0
        durations := { focus := 1500, «break» := 300, longBreak := 900 }
        intervals := [0]
        nextHandle := 1
        localStorage := store
        effects := [.progress 1500 1500] } := by
  simp [toggleTimer, startTimer, setInterval, PomodoroProTimer.constructor, updateProgress, emit]

theorem counters_toggleTimer (t : PomodoroProTimer) :
    counters (toggleTimer t) = counters t ∧ (toggleTimer t).effects = t.effects := by
  unfold toggleTimer
  cases hr : t.isRunning <;> simp [counters, pauseTimer, clearInterval, startTimer, setInterval]

theorem counters_setMode (m : Mode) (t : PomodoroProTimer) :
    counters (setMode m t) = counters t := by
  simp [setMode_eq, counters]

theorem counters_toggleMode (t : PomodoroProTimer) :
    counters (toggleMode t) = counters t := by
  unfold toggleMode
  split <;> exact counters_setMode _ t

theorem resetTimer_eq (t : PomodoroProTimer) :
    resetTimer t =
      { t with isRunning := false
               timeLeft := t.durations.get t.currentMode
               totalTime := t.durations.get t.currentMode
               intervals := removeHandle t.timerInterval t.intervals
               effects := t.effects ++
                 [.progress (t.durations.get t.currentMode) (t.durations.get t.currentMode),
                  .resetSound] } := by
  simp [resetTimer, pauseTimer, clearInterval, updateProgress, emit]

/-- One command or tick either logs no completion and keeps the counters, or
logs one focus completion and credits it, or logs one completion of a break and
keeps the counters. -/
theorem step_cases (h : Host) (t : PomodoroProTimer) (c : Command) :
    (completions (step h t c).effects = completions t.effects ∧
      focusCompletions (step h t c).effects = focusCompletions t.effects ∧
      counters (step h t c) = counters t) ∨
    (completions (step h t c).effects = completions t.effects + 1 ∧
      focusCompletions (step h t c).effects = focusCompletions t.effects + 1 ∧
      t.currentMode = .focus ∧
      (step h t c).sessionCount = t.sessionCount + 1 ∧
      (step h t c).completedSessions = t.completedSessions + 1 ∧
      (step h t c).totalTimeSpent = t.totalTimeSpent + t.durations.focus ∧
      (step h t c).streakCount = t.streakCount + 1 ∧
      (step h t c).currentMode =
        (if Int.tmod (t.completedSessions + 1) 4 = 0 then Mode.longBreak else Mode.break)) ∨
    (completions (step h t c).effects = completions t.effects + 1 ∧
      focusCompletions (step h t c).effects = focusCompletions t.effects ∧
      t.currentMode ≠ .focus ∧
      counters (step h t c) = counters t ∧
      (step h t c).currentMode = .focus) := by
  cases c with
  | toggleTimer =>
    left
    have := counters_toggleTimer t
    simp [step, this]
  | resetTimer =>
    left
    simp [step, resetTimer_eq, counters, completions, focusCompletions, List.countP_append]
  | setMode m =>
    left
    simp [step, setMode_eq, counters, completions, focusCompletions, List.countP_append]
  | toggleMode =>
    left
    simp only [step, toggleMode]
    split <;>
      simp [setMode_eq, counters, completions, focusCompletions, List.countP_append]
  | tick i =>
    simp only [step]
    by_cases hi : i ∈ t.intervals
    · by_cases hl : 1 < t.timeLeft
      · left
        simp [tick_of_lt h i t hi hl, counters, completions, focusCompletions, List.countP_append]
      · rw [tick_of_le h i t hi (by omega)]
        by_cases hm : t.currentMode = .focus
        · right; left
          rw [completeSession_focus_eq h _ (by simpa using hm)]
          simp [hm, completions, focusCompletions, List.countP_append, List.countP_cons]
        · right; right
          rw [completeSession_rest_eq h _ (by simpa using hm)]
          have hm2 : ¬ (Effect.notificationSound t.currentMode = Effect.notificationSound .focus) := by
            simpa using hm
          simp [hm, hm2, counters, completions, focusCompletions, List.countP_append,
            List.countP_cons]
    · left
      simp [tick_of_not_mem h i t hi]
  | periodicSave =>
    left
    simp [step, saveData, counters]

/-- Along any run, `completedSessions` grows by the number of focus completions logged. -/
theorem run_completedSessions (h : Host) (cmds : List Command) :
    ∀ t0 : PomodoroProTimer, ∃ n : Nat,
      focusCompletions (run h t0 cmds).effects = focusCompletions t0.effects + n ∧
      (run h t0 cmds).completedSessions = t0.completedSessions + n := by
  induction cmds with
  | nil => intro t0; exact ⟨0, by simp [run_nil]⟩
  | cons c cs ih =>
    intro t0
    rw [run_cons]
    obtain ⟨n, hn1, hn2⟩ := ih (step h t0 c)
    rcases step_cases h t0 c with ⟨_, hf, hc⟩ | ⟨_, hf, _, _, hc, _⟩ | ⟨_, hf, _, hc, _⟩
    · refine ⟨n, by rw [hn1, hf], ?_⟩
      simp only [counters, Prod.mk.injEq] at hc
      rw [hn2, hc.2.1]
    · refine ⟨n + 1, by rw [hn1, hf]; ring, ?_⟩
      rw [hn2, hc]
      push_cast
      ring
    · refine ⟨n, by rw [hn1, hf], ?_⟩
      simp only [counters, Prod.mk.injEq] at hc
      rw [hn2, hc.2.1]

/-- Every completion logs one notification sound and leaves an idle timer at
the start of the next interval, with the timer's own handle cleared. -/
theorem completeSession_summary (h : Host) (t : PomodoroProTimer) :
    (completeSession h t).isRunning = false ∧
    (completeSession h t).timeLeft = t.durations.get (completeSession h t).currentMode ∧
    (completeSession h t).totalTime = t.durations.get (completeSession h t).currentMode ∧
    (completeSession h t).durations = t.durations ∧
    completions (completeSession h t).effects = completions t.effects + 1 ∧
    (completeSession h t).intervals = removeHandle t.timerInterval t.intervals ∧
    (completeSession h t).timerInterval = t.timerInterval ∧
    (completeSession h t).nextHandle = t.nextHandle := by
  by_cases hm : t.currentMode = .focus
  · rw [completeSession_focus_eq h t hm]
    simp [completions, List.countP_append, List.countP_cons]
  · rw [completeSession_rest_eq h t hm]
    simp [completions, List.countP_append, List.countP_cons, Durations.get]

/-- Start after `setMode`: the timer runs on a fresh handle. -/
theorem toggleTimer_setMode (m : Mode) (t : PomodoroProTimer) :
    toggleTimer (setMode m t) =
      { setMode m t with isRunning := true
                         timerInterval := some t.nextHandle
                         intervals := (setMode m t).intervals ++ [t.nextHandle]
                         nextHandle := t.nextHandle + 1 } := by
  have hr : (setMode m t).isRunning = false := by simp [setMode_eq]
  have hn : (setMode m t).nextHandle = t.nextHandle := by simp [setMode_eq]
  simp [toggleTimer, hr, startTimer, setInterval, hn]

theorem not_mem_removeHandle (i : Nat) (l : List Nat) : i ∉ removeHandle (some i) l := by
  simp [removeHandle]

theorem removeHandle_nil (o : Option Nat) : removeHandle o [] = [] := by
  cases o <;> simp [removeHandle]

theorem removeHandle_self (i : Nat) : removeHandle (some i) [i] = [] := by
  simp [removeHandle]

theorem Inv.get_pos {t : PomodoroProTimer} (ht : Inv t) (m : Mode) : 0 < t.durations.get m := by
  cases m
  · exact ht.focus_pos
  · exact ht.break_pos
  · exact ht.longBreak_pos

theorem Inv.total_pos {t : PomodoroProTimer} (ht : Inv t) : 0 < t.totalTime := by
  rw [ht.total_eq]
  exact ht.get_pos _

/-- Clearing the timer's own handle leaves nothing scheduled. -/
theorem Inv.removeHandle_eq {t : PomodoroProTimer} (ht : Inv t) :
    removeHandle t.timerInterval t.intervals = [] := by
  cases hr : t.isRunning
  · rw [ht.idle hr, removeHandle_nil]
  · obtain ⟨i, h1, h2⟩ := ht.running hr
    rw [h1, h2, removeHandle_self]

theorem progressOk_snoc {l : List Effect} (hl : ∀ e ∈ l, e.progressOk) {l2 : List Effect}
    (h2 : ∀ e ∈ l2, e.progressOk) : ∀ e ∈ l ++ l2, e.progressOk := by
  intro e he
  rcases List.mem_append.1 he with he | he
  · exact hl e he
  · exact h2 e he

theorem inv_setMode (m : Mode) {t : PomodoroProTimer} (ht : Inv t) : Inv (setMode m t) := by
  have hp := ht.get_pos m
  rw [setMode_eq]
  refine ⟨ht.focus_pos, ht.break_pos, ht.longBreak_pos, rfl, ?_, le_refl _, ?_, ?_, ?_⟩
  · show 1 ≤ t.durations.get m
    omega
  · intro hr; simp at hr
  · intro _
    show (if t.isRunning then removeHandle t.timerInterval t.intervals else t.intervals) = []
    cases hr : t.isRunning
    · simpa using ht.idle hr
    · simpa using ht.removeHandle_eq
  · apply progressOk_snoc ht.progress_ok
    intro e he
    simp only [List.mem_singleton] at he
    subst he
    exact ⟨hp, le_of_lt hp, le_refl _⟩

theorem inv_resetTimer {t : PomodoroProTimer} (ht : Inv t) : Inv (resetTimer t) := by
  have hp := ht.get_pos t.currentMode
  rw [resetTimer_eq]
  refine ⟨ht.focus_pos, ht.break_pos, ht.longBreak_pos, rfl, ?_, le_refl _, ?_, ?_, ?_⟩
  · show 1 ≤ t.durations.get t.currentMode
    omega
  · intro hr; simp at hr
  · intro _
    exact ht.removeHandle_eq
  · apply progressOk_snoc ht.progress_ok
    intro e he
    simp only [List.mem_cons, List.mem_singleton, List.not_mem_nil, or_false] at he
    rcases he with rfl | rfl
    · exact ⟨hp, le_of_lt hp, le_refl _⟩
    · trivial

theorem inv_toggleTimer {t : PomodoroProTimer} (ht : Inv t) : Inv (toggleTimer t) := by
  unfold toggleTimer
  cases hr : t.isRunning
  · have hi := ht.idle hr
    simp only [Bool.false_eq_true, if_false]
    refine ⟨ht.focus_pos, ht.break_pos, ht.longBreak_pos, ht.total_eq, ht.left_pos, ht.left_le,
      ?_, ?_, ht.progress_ok⟩
    · intro _
      exact ⟨t.nextHandle, rfl, by simp [startTimer, setInterval, hi]⟩
    · intro hf; simp [startTimer, setInterval] at hf
  · simp only [if_true]
    refine ⟨ht.focus_pos, ht.break_pos, ht.longBreak_pos, ht.total_eq, ht.left_pos, ht.left_le,
      ?_, ?_, ht.progress_ok⟩
    · intro hf; simp [pauseTimer, clearInterval] at hf
    · intro _
      exact ht.removeHandle_eq

theorem inv_completeSession (h : Host) {t : PomodoroProTimer} (hf : 0 < t.durations.focus)
    (hb : 0 < t.durations.break) (hl : 0 < t.durations.longBreak)
    (hrem : removeHandle t.timerInterval t.intervals = [])
    (hp : ∀ e ∈ t.effects, e.progressOk) : Inv (completeSession h t) := by
  have hpos : ∀ m, 0 < t.durations.get m := by
    intro m; cases m <;> assumption
  by_cases hm : t.currentMode = .focus
  · rw [completeSession_focus_eq h t hm]
    have hq := hpos (if Int.tmod (t.completedSessions + 1) 4 = 0 then .longBreak else .break)
    refine ⟨hf, hb, hl, rfl, ?_, le_refl _, ?_, fun _ => hrem, ?_⟩
    · show 1 ≤ t.durations.get _
      omega
    · intro hr; simp at hr
    · apply progressOk_snoc hp
      intro e he
      simp only [List.mem_cons, List.mem_singleton, List.not_mem_nil, or_false] at he
      rcases he with rfl | rfl | rfl
      · trivial
      · trivial
      · exact ⟨hq, le_of_lt hq, le_refl _⟩
  · rw [completeSession_rest_eq h t hm]
    refine ⟨hf, hb, hl, rfl, ?_, le_refl _, ?_, fun _ => hrem, ?_⟩
    · show 1 ≤ t.durations.focus
      omega
    · intro hr; simp at hr
    · apply progressOk_snoc hp
      intro e he
      simp only [List.mem_cons, List.mem_singleton, List.not_mem_nil, or_false] at he
      rcases he with rfl | rfl | rfl
      · trivial
      · trivial
      · exact ⟨hf, le_of_lt hf, le_refl _⟩

theorem inv_tick (h : Host) (i : Nat) {t : PomodoroProTimer} (ht : Inv t) : Inv (tick h i t) := by
  by_cases hi : i ∈ t.intervals
  · have hT := ht.total_pos
    have h1 := ht.left_pos
    have h2 := ht.left_le
    by_cases hl : 1 < t.timeLeft
    · rw [tick_of_lt h i t hi hl]
      refine ⟨ht.focus_pos, ht.break_pos, ht.longBreak_pos, ht.total_eq, ?_, ?_, ht.running,
        ht.idle, ?_⟩
      · show 1 ≤ t.timeLeft - 1
        omega
      · show t.timeLeft - 1 ≤ t.totalTime
        omega
      · apply progressOk_snoc ht.progress_ok
        intro e he
        simp only [List.mem_singleton] at he
        subst he
        exact ⟨hT, by omega, by omega⟩
    · rw [tick_of_le h i t hi (by omega)]
      refine inv_completeSession h ?_ ?_ ?_ ?_ ?_
      · exact ht.focus_pos
      · exact ht.break_pos
      · exact ht.longBreak_pos
      · exact ht.removeHandle_eq
      · apply progressOk_snoc ht.progress_ok
        intro e he
        simp only [List.mem_singleton] at he
        subst he
        exact ⟨hT, by omega, by omega⟩
  · rw [tick_of_not_mem h i t hi]
    exact ht

theorem inv_step (h : Host) (c : Command) {t : PomodoroProTimer} (ht : Inv t) :
    Inv (step h t c) := by
  cases c with
  | toggleTimer => exact inv_toggleTimer ht
  | resetTimer => exact inv_resetTimer ht
  | setMode m => exact inv_setMode m ht
  | toggleMode =>
    show Inv (toggleMode t)
    unfold toggleMode
    split
    · exact inv_setMode _ ht
    · exact inv_setMode _ ht
  | tick i => exact inv_tick h i ht
  | periodicSave =>
    show Inv (saveData h t)
    exact ⟨ht.focus_pos, ht.break_pos, ht.longBreak_pos, ht.total_eq, ht.left_pos, ht.left_le,
      ht.running, ht.idle, ht.progress_ok⟩

theorem inv_run (h : Host) (cmds : List Command) :
    ∀ {t : PomodoroProTimer}, Inv t → Inv (run h t cmds) := by
  induction cmds with
  | nil => intro t ht; exact ht
  | cons c cs ih =>
    intro t ht
    rw [run_cons]
    exact ih (inv_step h c ht)

theorem inv_constructor (store : Option String) (cs tt sk sc : Int) :
    Inv ((PomodoroProTimer.constructor store).withStats cs tt sk sc) := by
  have e : ∀ x y : Int, x = y → 0 < y → 0 < x := fun x y hxy hy => hxy ▸ hy
  refine ⟨e _ 1500 rfl (by decide), e _ 300 rfl (by decide), e _ 900 rfl (by decide), rfl,
    ?_, ?_, ?_, fun _ => rfl, ?_⟩
  · show (1 : Int) ≤ 25 * 60
    decide
  · show (25 * 60 : Int) ≤ 25 * 60
    decide
  · intro hr
    simp [PomodoroProTimer.constructor, PomodoroProTimer.withStats, updateProgress, emit] at hr
  · intro e he
    simp [PomodoroProTimer.constructor, PomodoroProTimer.withStats, updateProgress, emit] at he
    subst he
    exact ⟨by decide, by decide, by decide⟩

theorem inv_of_reachable {h : Host} {t : PomodoroProTimer} (ht : Reachable h t) : Inv t := by
  obtain ⟨store, cs, tt, sk, sc, cmds, rfl⟩ := ht
  exact inv_run h cmds (inv_constructor store cs tt sk sc)

theorem progressFraction_bounds {totalTime timeLeft : Int} (hT : 0 < totalTime)
    (h0 : 0 ≤ timeLeft) (h1 : timeLeft ≤ totalTime) :
    0 ≤ progressFraction totalTime timeLeft ∧ progressFraction totalTime timeLeft ≤ 1 := by
  unfold progressFraction
  have hTq : (0 : ℚ) < (totalTime : ℚ) := by exact_mod_cast hT
  have h0q : (0 : ℚ) ≤ ((totalTime - timeLeft : Int) : ℚ) := by
    have : (0 : Int) ≤ totalTime - timeLeft := by omega
    exact_mod_cast this
  have h1q : ((totalTime - timeLeft : Int) : ℚ) ≤ (totalTime : ℚ) := by
    have : totalTime - timeLeft ≤ totalTime := by omega
    exact_mod_cast this
  exact ⟨div_nonneg h0q (le_of_lt hTq), (div_le_one hTq).2 h1q⟩

theorem or_num_zero (n : Int) : (JSVal.num n).or (.num 0) = .num n := by
  by_cases hn : n = 0 <;> simp [JSVal.or, JSVal.truthy, hn]

theorem or_num_one {n : Int} (hn : n ≠ 0) : (JSVal.num n).or (.num 1) = .num n := by
  simp [JSVal.or, JSVal.truthy, hn]

/-- The branch of `loadData` taken for a stored text that parses to `data`. -/
theorem loadData_of_parse (h : Host) (t : PomodoroProTimer) (savedData : String) (data : JSVal)
    (hs : t.localStorage = some savedData) (hne : savedData ≠ "")
    (hp : h.jsonParse savedData = some data) :
    loadData h t =
      (do
        let lastSaveDate ← data.getProp "lastSaveDate"
        if lastSaveDate.strictNeStr h.today then
          pure { completedSessions := .num 0
                 totalTimeSpent := .num 0
                 streakCount := .num 0
                 sessionCount := .num 1 }
        else
          let completedSessions ← data.getProp "completedSessions"
          let totalTimeSpent ← data.getProp "totalTimeSpent"
          let streakCount ← data.getProp "streakCount"
          let sessionCount ← data.getProp "sessionCount"
          pure { completedSessions := completedSessions.or (.num 0)
                 totalTimeSpent := totalTimeSpent.or (.num 0)
                 streakCount := streakCount.or (.num 0)
                 sessionCount := sessionCount.or (.num 1) }) := by
  simp only [loadData, hs, hne, hp, if_false]

theorem strictNeStr_of_ne (v : JSVal) (text : String) (hv : v ≠ .str text) :
    v.strictNeStr text = true := by
  cases v <;> simp [JSVal.strictNeStr]
  rename_i s
  intro hs
  exact hv (by rw [hs])

/-- Claim C1. For every mode `m` and every timer state (running or not, any
`timeLeft`), `setMode m` yields `currentMode = m`,
`timeLeft = totalTime = durations[m]` and `isRunning = false`; the durations
themselves are not touched. -/
theorem setMode_resets_interval (m : Mode) (t : PomodoroProTimer) :
    (setMode m t).currentMode = m ∧
    (setMode m t).timeLeft = t.durations.get m ∧
    (setMode m t).totalTime = t.durations.get m ∧
    (setMode m t).durations = t.durations ∧
    (setMode m t).isRunning = false := by
  simp [setMode_eq]

theorem excessBits_of_lt (fuel m : Nat) (hm : m < 2 ^ 53) : excessBits fuel m = 0 := by
  cases fuel with
  | zero => rfl
  | succ f =>
    unfold excessBits
    rw [if_pos hm]

/-- A safe integer is a double. -/
theorem toDouble_of_safe (x : Int) (hx : x.natAbs < 2 ^ 53) : toDouble x = x := by
  unfold toDouble
  simp only [excessBits_of_lt _ _ hx, pow_zero, Nat.div_one, Nat.mod_one, Nat.mul_zero,
    Nat.mul_one]
  have h1 : ¬ (1 < 0 ∨ (0 = 1 ∧ x.natAbs % 2 = 1)) := by omega
  rw [if_neg h1]
  split <;> omega

/-- So are `2 ^ 53` and its negative. -/
theorem toDouble_of_le (x : Int) (hx : x.natAbs ≤ 2 ^ 53) : toDouble x = x := by
  rcases Nat.lt_or_eq_of_le hx with h1 | h1
  · exact toDouble_of_safe x h1
  · have h2 : (2 : Nat) ^ 53 = 9007199254740992 := by norm_num
    have : x = 9007199254740992 ∨ x = -9007199254740992 := by omega
    rcases this with rfl | rfl <;> decide

/-- Adding 1 to a safe integer is exact. -/
theorem jsAdd_one_of_safe (x : Int) (hx : isSafeInteger x = true) : jsAdd x 1 = x + 1 := by
  have h2 : (2 : Nat) ^ 53 = 9007199254740992 := by norm_num
  have hx2 : x.natAbs < 2 ^ 53 := by simpa [isSafeInteger] using hx
  exact toDouble_of_le _ (by omega)

/-- A sum that is a safe integer is exact. -/
theorem jsAdd_of_safe (a b : Int) (hs : isSafeInteger (a + b) = true) : jsAdd a b = a + b := by
  have hs2 : (a + b).natAbs < 2 ^ 53 := by simpa [isSafeInteger] using hs
  exact toDouble_of_safe _ hs2

/-- Where the four updates are exact, double arithmetic changes nothing. -/
theorem completeSessionDouble_eq (h : Host) (t : PomodoroProTimer)
    (e1 : jsAdd t.completedSessions 1 = t.completedSessions + 1)
    (e2 : jsAdd t.streakCount 1 = t.streakCount + 1)
    (e3 : jsAdd t.totalTimeSpent (t.durations.get t.currentMode) =
      t.totalTimeSpent + t.durations.get t.currentMode)
    (e4 : jsAdd t.sessionCount 1 = t.sessionCount + 1) :
    completeSessionDouble h t = completeSession h t := by
  simp only [completeSessionDouble, completeSession, pauseTimer, clearInterval, emit, e1, e2, e3,
    e4]

/-- A break or long break is completed without any arithmetic. -/
theorem completeSessionDouble_rest (h : Host) (t : PomodoroProTimer)
    (hm : t.currentMode ≠ .focus) : completeSessionDouble h t = completeSession h t := by
  simp only [completeSessionDouble, completeSession, pauseTimer, clearInterval, emit, hm,
    if_false]

/-- The run Start, then 1500 ticks, on the constructed timer: its last tick
completes the focus interval. -/
theorem run_first_session (h : Host) (store : Option String) :
    run h (PomodoroProTimer.constructor store) (.toggleTimer :: List.replicate 1500 (.tick 0)) =
      completeSession h
        { toggleTimer (PomodoroProTimer.constructor store) with
          timeLeft := 0
          effects := (toggleTimer (PomodoroProTimer.constructor store)).effects ++
            countdownEffects 1500 1500 1500 } := by
  rw [run_cons]
  show run h (toggleTimer _) _ = _
  rw [toggleTimer_constructor, run_interval h 0 1499 _ (by simp) (by simp)]

/-- Claim C2, amended to what the code does. In every state whose mode is focus
and whose four counters are safe integers (magnitude below `2 ^ 53`), with
`totalTimeSpent + durations.focus` a safe integer too, `completeSession`, its
`++` and `+=` taken in double arithmetic, raises `completedSessions`,
`streakCount` and `sessionCount` by exactly 1 and `totalTimeSpent` by exactly
`durations.focus`, and is the same as with exact integers. From the constructed
timer (where `durations.focus = 1500`), Start followed by 1500 ticks ends in
such a completion and gives `completedSessions = 1`, `streakCount = 1`,
`totalTimeSpent = 1500`, `sessionCount = 2`, mode break, `timeLeft = 300`, not
running. -/
theorem completeSession_focus_accounting (h : Host) :
    (∀ t : PomodoroProTimer, t.currentMode = .focus →
      isSafeInteger t.completedSessions = true → isSafeInteger t.streakCount = true →
      isSafeInteger t.sessionCount = true → isSafeInteger t.totalTimeSpent = true →
      isSafeInteger (t.totalTimeSpent + t.durations.focus) = true →
      completeSessionDouble h t = completeSession h t ∧
      (completeSessionDouble h t).completedSessions = t.completedSessions + 1 ∧
      (completeSessionDouble h t).streakCount = t.streakCount + 1 ∧
      (completeSessionDouble h t).sessionCount = t.sessionCount + 1 ∧
      (completeSessionDouble h t).totalTimeSpent = t.totalTimeSpent + t.durations.focus) ∧
    (∀ store : Option String,
      (PomodoroProTimer.constructor store).durations.focus = 1500 ∧
      run h (PomodoroProTimer.constructor store)
          (.toggleTimer :: List.replicate 1500 (.tick 0)) =
        completeSessionDouble h
          { toggleTimer (PomodoroProTimer.constructor store) with
            timeLeft := 0
            effects := (toggleTimer (PomodoroProTimer.constructor store)).effects ++
              countdownEffects 1500 1500 1500 } ∧
      (run h (PomodoroProTimer.constructor store)
        (.toggleTimer :: List.replicate 1500 (.tick 0))).completedSessions = 1 ∧
      (run h (PomodoroProTimer.constructor store)
        (.toggleTimer :: List.replicate 1500 (.tick 0))).streakCount = 1 ∧
      (run h (PomodoroProTimer.constructor store)
        (.toggleTimer :: List.replicate 1500 (.tick 0))).totalTimeSpent = 1500 ∧
      (run h (PomodoroProTimer.constructor store)
        (.toggleTimer :: List.replicate 1500 (.tick 0))).sessionCount = 2 ∧
      (run h (PomodoroProTimer.constructor store)
        (.toggleTimer :: List.replicate 1500 (.tick 0))).currentMode = .break ∧
      (run h (PomodoroProTimer.constructor store)
        (.toggleTimer :: List.replicate 1500 (.tick 0))).timeLeft = 300 ∧
      (run h (PomodoroProTimer.constructor store)
        (.toggleTimer :: List.replicate 1500 (.tick 0))).isRunning = false) := by
  refine ⟨fun t hm s1 s2 s3 _ s5 => ?_, fun store => ?_⟩
  · have hd : t.durations.get t.currentMode = t.durations.focus := by rw [hm]; rfl
    have heq : completeSessionDouble h t = completeSession h t :=
      completeSessionDouble_eq h t (jsAdd_one_of_safe _ s1) (jsAdd_one_of_safe _ s2)
        (by rw [hd]; exact jsAdd_of_safe _ _ s5) (jsAdd_one_of_safe _ s3)
    refine ⟨heq, ?_⟩
    rw [heq]
    simp [completeSession_focus_eq h t hm]
  · have h4 : ¬ Int.tmod ((0 : Int) + 1) 4 = 0 := by decide
    have hdbl : completeSessionDouble h
          { toggleTimer (PomodoroProTimer.constructor store) with
            timeLeft := 0
            effects := (toggleTimer (PomodoroProTimer.constructor store)).effects ++
              countdownEffects 1500 1500 1500 } =
        completeSession h
          { toggleTimer (PomodoroProTimer.constructor store) with
            timeLeft := 0
            effects := (toggleTimer (PomodoroProTimer.constructor store)).effects ++
              countdownEffects 1500 1500 1500 } := by
      rw [toggleTimer_constructor]
      exact completeSessionDouble_eq h _ (show jsAdd (0 : Int) 1 = 0 + 1 by decide)
        (show jsAdd (0 : Int) 1 = 0 + 1 by decide)
        (show jsAdd (0 : Int) 1500 = 0 + 1500 by decide)
        (show jsAdd (1 : Int) 1 = 1 + 1 by decide)
    rw [hdbl, run_first_session h store, toggleTimer_constructor, completeSession_focus_eq h _ rfl]
    dsimp only
    rw [if_neg h4]
    simp [Durations.get, PomodoroProTimer.constructor, updateProgress, emit]

/-- Instance of the amended C2: completing the first focus session of a fresh timer. -/
theorem completeSession_focus_accounting_witness :
    (PomodoroProTimer.constructor none).currentMode = .focus ∧
    isSafeInteger (PomodoroProTimer.constructor none).sessionCount = true ∧
    isSafeInteger ((PomodoroProTimer.constructor none).totalTimeSpent +
      (PomodoroProTimer.constructor none).durations.focus) = true ∧
    completeSessionDouble refHost (PomodoroProTimer.constructor none) =
      completeSession refHost (PomodoroProTimer.constructor none) ∧
    (completeSessionDouble refHost (PomodoroProTimer.constructor none)).completedSessions
      = 0 + 1 ∧
    (completeSessionDouble refHost (PomodoroProTimer.constructor none)).streakCount = 0 + 1 ∧
    (completeSessionDouble refHost (PomodoroProTimer.constructor none)).sessionCount = 1 + 1 ∧
    (completeSessionDouble refHost (PomodoroProTimer.constructor none)).totalTimeSpent
      = 0 + 1500 :=
  ⟨rfl, by decide, by decide,
    (completeSession_focus_accounting refHost).1 (PomodoroProTimer.constructor none) rfl
      (by decide) (by decide) (by decide) (by decide) (by decide)⟩

set_option maxRecDepth 4000 in
/-- Counterexample to C2 as stated: a record dated today restores
`sessionCount = 2 ^ 53`; in that focus state `sessionCount++` rounds back to
`2 ^ 53`, so `completeSession` leaves `sessionCount` unchanged instead of
raising it by 1. -/
theorem completeSession_rounding_counterexample :
    loadData refHost (PomodoroProTimer.constructor (some overflowRecord)) =
      .ok { completedSessions := .num 3
            totalTimeSpent := .num 4500
            streakCount := .num 3
            sessionCount := .num 9007199254740992 } ∧
    overflowTimer.currentMode = .focus ∧
    overflowTimer.sessionCount = 9007199254740992 ∧
    (completeSessionDouble refHost overflowTimer).sessionCount = 9007199254740992 ∧
    (completeSessionDouble refHost overflowTimer).sessionCount ≠ overflowTimer.sessionCount + 1 :=
  ⟨rfl, rfl, rfl, by decide, by decide⟩

/-- Claim C3. Next-mode selection of `completeSession`. A focus completion that
brings `completedSessions` to `k` selects long break when `k` is a multiple of
4 and break otherwise, and a completion of a break or long break selects focus.
Along any run that starts with `completedSessions = 0`, the command that logs
the `k`-th focus completion leaves the mode long break when `k` is a multiple
of 4 and break otherwise; a command that logs the completion of a break or long
break leaves the mode focus. -/
theorem completeSession_next_mode (h : Host) :
    (∀ (t : PomodoroProTimer) (k : Nat), t.currentMode = .focus → t.completedSessions + 1 = k →
      (completeSession h t).currentMode = if k % 4 = 0 then .longBreak else .break) ∧
    (∀ t : PomodoroProTimer, t.currentMode ≠ .focus →
      (completeSession h t).currentMode = .focus) ∧
    (∀ (t0 : PomodoroProTimer) (cmds : List Command) (c : Command) (k : Nat),
      t0.completedSessions = 0 →
      focusCompletions (run h t0 cmds).effects + 1 = focusCompletions t0.effects + k →
      focusCompletions (run h t0 (cmds ++ [c])).effects = focusCompletions t0.effects + k →
      (run h t0 (cmds ++ [c])).currentMode = if k % 4 = 0 then .longBreak else .break) ∧
    (∀ (t : PomodoroProTimer) (c : Command),
      completions (step h t c).effects = completions t.effects + 1 →
      focusCompletions (step h t c).effects = focusCompletions t.effects →
      (step h t c).currentMode = .focus) := by
  refine ⟨fun t k hm hk => ?_, fun t hm => ?_, fun t0 cmds c k h0 hb ha => ?_, fun t c hc hf => ?_⟩
  · rw [completeSession_focus_eq h t hm, hk]
    simp only [tmod_four_eq_zero_iff]
  · rw [completeSession_rest_eq h t hm]
  · obtain ⟨n, hn1, hn2⟩ := run_completedSessions h cmds t0
    rw [run_snoc] at ha ⊢
    rcases step_cases h (run h t0 cmds) c with ⟨_, hf, _⟩ | ⟨_, _, _, _, _, _, _, hmode⟩ |
      ⟨_, hf, _⟩
    · omega
    · have hk : (run h t0 cmds).completedSessions + 1 = (k : Int) := by
        rw [hn2, h0]
        have : n + 1 = k := by omega
        rw [← this]
        push_cast
        ring
      rw [hmode, hk]
      simp only [tmod_four_eq_zero_iff]
    · omega
  · rcases step_cases h t c with ⟨hc2, _, _⟩ | ⟨_, hf2, _⟩ | ⟨_, _, _, _, hmode⟩
    · omega
    · omega
    · exact hmode

/-- Instance of C3: on `quickTimer` the tick that completes the fourth focus
session selects the long break. -/
theorem completeSession_next_mode_witness :
    quickTimer.completedSessions = 0 ∧
    focusCompletions (run refHost quickTimer threeSessionsAndMost).effects + 1 =
      focusCompletions quickTimer.effects + 4 ∧
    focusCompletions (run refHost quickTimer (threeSessionsAndMost ++ [.tick 6])).effects =
      focusCompletions quickTimer.effects + 4 ∧
    (run refHost quickTimer (threeSessionsAndMost ++ [.tick 6])).currentMode =
      (if 4 % 4 = 0 then Mode.longBreak else Mode.break) :=
  ⟨rfl, by decide, by decide,
    (completeSession_next_mode refHost).2.2.1 quickTimer threeSessionsAndMost (.tick 6) 4 rfl
      (by decide) (by decide)⟩

/-- Claim C4. The four counters are changed only by a focus completion:
`startTimer`, `pauseTimer`, `toggleTimer`, `resetTimer`, `setMode m`,
`toggleMode`, a tick that does not reach zero, and `completeSession` in mode
break or long break leave them unchanged, and so does every command or tick
that logs no focus completion. In particular, `setMode break` called in the
middle of the first focus interval, at `timeLeft = 900`, credits nothing and
yields mode break with `timeLeft = 300`. -/
theorem counters_changed_only_by_focus_completion (h : Host) (t : PomodoroProTimer) :
    counters (startTimer t) = counters t ∧
    counters (pauseTimer t) = counters t ∧
    counters (toggleTimer t) = counters t ∧
    counters (resetTimer t) = counters t ∧
    (∀ m : Mode, counters (setMode m t) = counters t) ∧
    counters (toggleMode t) = counters t ∧
    (∀ i : Nat, 0 < t.timeLeft - 1 → counters (tick h i t) = counters t) ∧
    (t.currentMode ≠ .focus → counters (completeSession h t) = counters t) ∧
    (∀ c : Command, focusCompletions (step h t c).effects = focusCompletions t.effects →
      counters (step h t c) = counters t) ∧
    (∀ store : Option String,
      (run h (PomodoroProTimer.constructor store)
        (.toggleTimer :: List.replicate 600 (.tick 0))).currentMode = .focus ∧
      (run h (PomodoroProTimer.constructor store)
        (.toggleTimer :: List.replicate 600 (.tick 0))).isRunning = true ∧
      (run h (PomodoroProTimer.constructor store)
        (.toggleTimer :: List.replicate 600 (.tick 0))).timeLeft = 900 ∧
      (setMode .break (run h (PomodoroProTimer.constructor store)
        (.toggleTimer :: List.replicate 600 (.tick 0)))).currentMode = .break ∧
      (setMode .break (run h (PomodoroProTimer.constructor store)
        (.toggleTimer :: List.replicate 600 (.tick 0)))).timeLeft = 300 ∧
      counters (setMode .break (run h (PomodoroProTimer.constructor store)
        (.toggleTimer :: List.replicate 600 (.tick 0)))) = (1, 0, 0, 0)) := by
  refine ⟨?_, ?_, (counters_toggleTimer t).1, ?_, fun m => counters_setMode m t,
    counters_toggleMode t, fun i hl => ?_, fun hm => ?_, fun c hc => ?_, fun store => ?_⟩
  · simp [counters, startTimer, setInterval]
  · simp [counters, pauseTimer, clearInterval]
  · simp [counters, resetTimer_eq]
  · by_cases hi : i ∈ t.intervals
    · rw [tick_of_lt h i t hi (by omega)]
      rfl
    · rw [tick_of_not_mem h i t hi]
  · rw [completeSession_rest_eq h t hm]
    rfl
  · rcases step_cases h t c with ⟨_, _, hk⟩ | ⟨_, hf, _⟩ | ⟨_, _, _, hk, _⟩
    · exact hk
    · omega
    · exact hk
  · have hrun : run h (PomodoroProTimer.constructor store)
        (.toggleTimer :: List.replicate 600 (.tick 0)) =
        { toggleTimer (PomodoroProTimer.constructor store) with
          timeLeft := 900
          effects := (toggleTimer (PomodoroProTimer.constructor store)).effects ++
            countdownEffects 1500 1500 600 } := by
      rw [run_cons]
      show run h (toggleTimer _) _ = _
      rw [toggleTimer_constructor, run_ticks h 0 600 _ (by simp) (by simp)]
      simp
    rw [hrun, toggleTimer_constructor, setMode_eq]
    simp [counters, Durations.get]

/-- Instance of C4: completing a break on `sampleTimer` leaves the counters alone. -/
theorem counters_changed_only_by_focus_completion_witness :
    sampleTimer.currentMode ≠ .focus ∧
    counters (completeSession refHost sampleTimer) = counters sampleTimer ∧
    (0 < sampleTimer.timeLeft - 1 ∧ counters (tick refHost 2 sampleTimer) = counters sampleTimer) :=
  ⟨by decide,
    (counters_changed_only_by_focus_completion refHost sampleTimer).2.2.2.2.2.2.2.1 (by decide),
    by decide,
    (counters_changed_only_by_focus_completion refHost sampleTimer).2.2.2.2.2.2.1 2 (by decide)⟩

/-- Claim C5. Completion fires exactly once per interval and leaves a fresh idle
interval. Start after `setMode m`, in any state and for any mode `m` with a
positive duration: the timer runs with `timeLeft = durations[m]`; after `k`
ticks, `k < durations[m]`, no completion has been logged and the timer still
runs with `timeLeft = durations[m] - k`; the tick number `durations[m]` logs
exactly one completion and leaves `isRunning = false` and
`timeLeft = totalTime = durations[currentMode]` for the mode then selected;
and no later firing of that handle does anything, the interval being cleared. -/
theorem completion_fires_once_per_interval (h : Host) (m : Mode) (t : PomodoroProTimer)
    (hd : 0 < t.durations.get m) :
    (toggleTimer (setMode m t)).isRunning = true ∧
    (toggleTimer (setMode m t)).timeLeft = t.durations.get m ∧
    (∀ k : Nat, (k : Int) < t.durations.get m →
      completions (run h (toggleTimer (setMode m t))
          (List.replicate k (.tick t.nextHandle))).effects =
        completions (toggleTimer (setMode m t)).effects ∧
      (run h (toggleTimer (setMode m t)) (List.replicate k (.tick t.nextHandle))).isRunning
        = true ∧
      (run h (toggleTimer (setMode m t)) (List.replicate k (.tick t.nextHandle))).timeLeft
        = t.durations.get m - k) ∧
    completions (run h (toggleTimer (setMode m t))
        (List.replicate (t.durations.get m).toNat (.tick t.nextHandle))).effects =
      completions (toggleTimer (setMode m t)).effects + 1 ∧
    (run h (toggleTimer (setMode m t))
      (List.replicate (t.durations.get m).toNat (.tick t.nextHandle))).isRunning = false ∧
    (run h (toggleTimer (setMode m t))
      (List.replicate (t.durations.get m).toNat (.tick t.nextHandle))).timeLeft =
      t.durations.get (run h (toggleTimer (setMode m t))
        (List.replicate (t.durations.get m).toNat (.tick t.nextHandle))).currentMode ∧
    (run h (toggleTimer (setMode m t))
      (List.replicate (t.durations.get m).toNat (.tick t.nextHandle))).totalTime =
      t.durations.get (run h (toggleTimer (setMode m t))
        (List.replicate (t.durations.get m).toNat (.tick t.nextHandle))).currentMode ∧
    (run h (toggleTimer (setMode m t))
      (List.replicate (t.durations.get m).toNat (.tick t.nextHandle))).durations = t.durations ∧
    (∀ n : Nat,
      run h (toggleTimer (setMode m t))
        (List.replicate ((t.durations.get m).toNat + n) (.tick t.nextHandle)) =
      run h (toggleTimer (setMode m t))
        (List.replicate (t.durations.get m).toNat (.tick t.nextHandle))) := by
  obtain ⟨d, hdn⟩ : ∃ d : Nat, (t.durations.get m).toNat = d + 1 :=
    ⟨(t.durations.get m).toNat - 1, by omega⟩
  have hdi : t.durations.get m = (d : Int) + 1 := by omega
  have hmem : t.nextHandle ∈ (toggleTimer (setMode m t)).intervals := by
    rw [toggleTimer_setMode]; simp
  have hleft : (toggleTimer (setMode m t)).timeLeft = t.durations.get m := by
    rw [toggleTimer_setMode]; simp [setMode_eq]
  have hdur : (toggleTimer (setMode m t)).durations = t.durations := by
    rw [toggleTimer_setMode]; simp [setMode_eq]
  have hhandle : (toggleTimer (setMode m t)).timerInterval = some t.nextHandle := by
    rw [toggleTimer_setMode]
  have hfull := run_interval h t.nextHandle d (toggleTimer (setMode m t)) hmem (by omega)
  have hsum := completeSession_summary h
    { toggleTimer (setMode m t) with
      timeLeft := 0
      effects := (toggleTimer (setMode m t)).effects ++
        countdownEffects (toggleTimer (setMode m t)).totalTime
          (toggleTimer (setMode m t)).timeLeft (d + 1) }
  rw [← hfull] at hsum
  obtain ⟨s1, s2, s3, s4, s5, s6, _, _⟩ := hsum
  rw [hdn]
  refine ⟨by rw [toggleTimer_setMode], hleft, fun k hk => ?_, ?_, s1, ?_, ?_, ?_, fun n => ?_⟩
  · rw [run_ticks h t.nextHandle k _ hmem (by omega)]
    refine ⟨?_, by rw [toggleTimer_setMode], by simp [hleft]⟩
    simp only [completions, List.countP_append]
    have := (completions_countdownEffects (toggleTimer (setMode m t)).totalTime
      (toggleTimer (setMode m t)).timeLeft k).1
    simp only [completions] at this
    omega
  · rw [s5]
    simp only [completions, List.countP_append]
    have := (completions_countdownEffects (toggleTimer (setMode m t)).totalTime
      (toggleTimer (setMode m t)).timeLeft (d + 1)).1
    simp only [completions] at this
    omega
  · rw [s2]; simp only [hdur]
  · rw [s3]; simp only [hdur]
  · rw [s4]; simp only [hdur]
  · rw [List.replicate_add, run_append]
    apply run_ticks_of_not_mem
    rw [s6]
    simp only [hhandle]
    exact not_mem_removeHandle _ _

/-- Instance of C5: a break started on `sampleTimer`, whose break lasts 300 seconds. -/
theorem completion_fires_once_per_interval_witness :
    0 < sampleTimer.durations.get .break ∧
    (run refHost (toggleTimer (setMode .break sampleTimer))
      (List.replicate (sampleTimer.durations.get .break).toNat
        (.tick sampleTimer.nextHandle))).isRunning = false :=
  ⟨by decide, (completion_fires_once_per_interval refHost .break sampleTimer (by decide)).2.2.2.2.1⟩

/-- Claim C6. Tick step. In every reachable state that is running, exactly one
interval is scheduled, the timer's own; its tick lowers `timeLeft` by exactly 1
(never below 0) and, apart from redrawing the progress ring, changes nothing
else when the new value is positive, and otherwise runs `completeSession`
within the same tick. No reachable state, and no state left by a tick handler,
has `timeLeft` below 0; in an idle reachable state no tick fires. -/
theorem tick_decrements_by_one (h : Host) (t : PomodoroProTimer) (ht : Reachable h t) :
    0 ≤ t.timeLeft ∧
    (∀ j : Nat, 0 ≤ (tick h j t).timeLeft) ∧
    (t.isRunning = false → ∀ j : Nat, tick h j t = t) ∧
    (t.isRunning = true →
      ∃ i : Nat, t.timerInterval = some i ∧ t.intervals = [i] ∧
        0 ≤ t.timeLeft - 1 ∧
        (0 < t.timeLeft - 1 →
          tick h i t =
            { t with timeLeft := t.timeLeft - 1
                     effects := t.effects ++ [.progress t.totalTime (t.timeLeft - 1)] }) ∧
        (t.timeLeft - 1 ≤ 0 →
          tick h i t =
            completeSession h
              { t with timeLeft := t.timeLeft - 1
                       effects := t.effects ++ [.progress t.totalTime (t.timeLeft - 1)] })) := by
  have hinv := inv_of_reachable ht
  have h1 := hinv.left_pos
  refine ⟨by omega, fun j => ?_, fun hr j => ?_, fun hr => ?_⟩
  · have := (inv_tick h j hinv).left_pos
    omega
  · apply tick_of_not_mem
    rw [hinv.idle hr]
    simp
  · obtain ⟨i, hi1, hi2⟩ := hinv.running hr
    have hmem : i ∈ t.intervals := by rw [hi2]; simp
    exact ⟨i, hi1, hi2, by omega, fun hl => tick_of_lt h i t hmem (by omega),
      fun hl => tick_of_le h i t hmem (by omega)⟩

/-- Instance of C6: the timer right after Start. -/
theorem tick_decrements_by_one_witness :
    Reachable refHost startedTimer ∧ startedTimer.isRunning = true ∧
    ∃ i : Nat, startedTimer.timerInterval = some i ∧ startedTimer.intervals = [i] ∧
      0 ≤ startedTimer.timeLeft - 1 ∧
      (0 < startedTimer.timeLeft - 1 →
        tick refHost i startedTimer =
          { startedTimer with
            timeLeft := startedTimer.timeLeft - 1
            effects := startedTimer.effects ++
              [.progress startedTimer.totalTime (startedTimer.timeLeft - 1)] }) ∧
      (startedTimer.timeLeft - 1 ≤ 0 →
        tick refHost i startedTimer =
          completeSession refHost
            { startedTimer with
              timeLeft := startedTimer.timeLeft - 1
              effects := startedTimer.effects ++
                [.progress startedTimer.totalTime (startedTimer.timeLeft - 1)] }) :=
  ⟨⟨none, 0, 0, 0, 1, [.toggleTimer], rfl⟩, rfl,
    (tick_decrements_by_one refHost startedTimer ⟨none, 0, 0, 0, 1, [.toggleTimer], rfl⟩).2.2.2 rfl⟩

/-- Claim C7. In every reachable state `totalTime > 0` and
`0 ≤ timeLeft ≤ totalTime`, so the fraction `(totalTime - timeLeft) / totalTime`
of `updateProgress` has a non-zero denominator and lies in `[0, 1]`; the same
holds for the values read by every call of `updateProgress` made so far. -/
theorem progress_fraction_well_defined (h : Host) (t : PomodoroProTimer) (ht : Reachable h t) :
    0 < t.totalTime ∧ 0 ≤ t.timeLeft ∧ t.timeLeft ≤ t.totalTime ∧
    0 ≤ progressFraction t.totalTime t.timeLeft ∧
    progressFraction t.totalTime t.timeLeft ≤ 1 ∧
    (∀ totalTime timeLeft : Int, Effect.progress totalTime timeLeft ∈ t.effects →
      0 < totalTime ∧ 0 ≤ timeLeft ∧ timeLeft ≤ totalTime ∧
      0 ≤ progressFraction totalTime timeLeft ∧ progressFraction totalTime timeLeft ≤ 1) := by
  have hinv := inv_of_reachable ht
  have hT := hinv.total_pos
  have h1 := hinv.left_pos
  have h2 := hinv.left_le
  have hb := progressFraction_bounds hT (by omega) h2
  refine ⟨hT, by omega, h2, hb.1, hb.2, fun T L hmem => ?_⟩
  obtain ⟨p1, p2, p3⟩ := hinv.progress_ok _ hmem
  have hb2 := progressFraction_bounds p1 p2 p3
  exact ⟨p1, p2, p3, hb2.1, hb2.2⟩

/-- Instance of C7: the timer right after Start. -/
theorem progress_fraction_well_defined_witness :
    Reachable refHost startedTimer ∧
    0 < startedTimer.totalTime ∧ 0 ≤ startedTimer.timeLeft ∧
    startedTimer.timeLeft ≤ startedTimer.totalTime :=
  ⟨⟨none, 0, 0, 0, 1, [.toggleTimer], rfl⟩,
    (progress_fraction_well_defined refHost startedTimer
      ⟨none, 0, 0, 0, 1, [.toggleTimer], rfl⟩).1,
    (progress_fraction_well_defined refHost startedTimer
      ⟨none, 0, 0, 0, 1, [.toggleTimer], rfl⟩).2.1,
    (progress_fraction_well_defined refHost startedTimer
      ⟨none, 0, 0, 0, 1, [.toggleTimer], rfl⟩).2.2.1⟩

/-- Claim C8. Day-boundary reset. For every stored text that parses to a record
whose `lastSaveDate` is not today's date string, a record without
`lastSaveDate` included, `loadData` sets `completedSessions = 0`,
`totalTimeSpent = 0`, `streakCount = 0` and `sessionCount = 1`, whatever the
record stores. -/
theorem loadData_resets_on_new_day (h : Host) (t : PomodoroProTimer) (savedData : String)
    (fields : List (String × JSVal))
    (hs : t.localStorage = some savedData) (hne : savedData ≠ "")
    (hp : h.jsonParse savedData = some (.obj fields))
    (hd : fields.lookup "lastSaveDate" ≠ some (.str h.today)) :
    loadData h t = .ok { completedSessions := .num 0
                         totalTimeSpent := .num 0
                         streakCount := .num 0
                         sessionCount := .num 1 } := by
  rw [loadData_of_parse h t savedData _ hs hne hp]
  have hne2 : ((fields.lookup "lastSaveDate").getD .undefined) ≠ .str h.today := by
    intro hc
    cases hl : fields.lookup "lastSaveDate" with
    | none => rw [hl] at hc; cases hc
    | some v =>
      rw [hl] at hc hd
      exact hd (by rw [← hc]; rfl)
  have := strictNeStr_of_ne _ _ hne2
  simp only [JSVal.getProp]
  show (if ((fields.lookup "lastSaveDate").getD .undefined).strictNeStr h.today = true then _
    else _) = _
  rw [if_pos this]
  rfl

/-- Instance of C8: yesterday's record, read on `refHost`'s today. -/
theorem loadData_resets_on_new_day_witness :
    (PomodoroProTimer.constructor (some yesterdayRecord)).localStorage = some yesterdayRecord ∧
    yesterdayRecord ≠ "" ∧
    refHost.jsonParse yesterdayRecord =
      some (.obj [("completedSessions", .num 7), ("totalTimeSpent", .num 10500),
        ("streakCount", .num 7), ("sessionCount", .num 8),
        ("lastSaveDate", .str "Thu Nov 05 2026")]) ∧
    loadData refHost (PomodoroProTimer.constructor (some yesterdayRecord)) =
      .ok { completedSessions := .num 0
            totalTimeSpent := .num 0
            streakCount := .num 0
            sessionCount := .num 1 } :=
  ⟨rfl, by decide, rfl,
    loadData_resets_on_new_day refHost (PomodoroProTimer.constructor (some yesterdayRecord))
      yesterdayRecord
      [("completedSessions", .num 7), ("totalTimeSpent", .num 10500),
        ("streakCount", .num 7), ("sessionCount", .num 8),
        ("lastSaveDate", .str "Thu Nov 05 2026")]
      rfl (by decide) rfl
      (fun hc => absurd
        (JSVal.str.inj (Option.some.inj
          (hc : some (JSVal.str "Thu Nov 05 2026") = some (JSVal.str "Fri Nov 06 2026"))))
        (by decide))⟩

/-- Claim C9. Round trip. For a timer with `sessionCount ≥ 1` and non-negative
`completedSessions`, `totalTimeSpent` and `streakCount`, on a host whose
`JSON.parse` reads back the record that `JSON.stringify` wrote, `saveData`
followed by `loadData` on the same day, in the same object or in a newly
constructed one, restores the four counters field for field. -/
theorem saveData_loadData_roundtrip (h : Host) (t : PomodoroProTimer)
    (hsc : 1 ≤ t.sessionCount) (_hcs : 0 ≤ t.completedSessions)
    (_htt : 0 ≤ t.totalTimeSpent) (_hsk : 0 ≤ t.streakCount)
    (hparse : h.jsonParse (h.jsonStringify (saveRecord h t)) = some (saveRecord h t))
    (hne : h.jsonStringify (saveRecord h t) ≠ "") :
    loadData h (saveData h t) = .ok (Stats.ofTimer t) ∧
    loadData h (PomodoroProTimer.constructor (saveData h t).localStorage) =
      .ok (Stats.ofTimer t) := by
  have hsc0 : t.sessionCount ≠ 0 := by omega
  have key : ∀ t2 : PomodoroProTimer,
      t2.localStorage = some (h.jsonStringify (saveRecord h t)) →
      loadData h t2 = .ok (Stats.ofTimer t) := by
    intro t2 h2
    rw [loadData_of_parse h t2 _ _ h2 hne hparse]
    simp [saveRecord, JSVal.getProp, List.lookup, JSVal.strictNeStr, bind, Except.bind, pure,
      Except.pure, or_num_zero, or_num_one hsc0, Stats.ofTimer]
  exact ⟨key _ rfl, key _ rfl⟩

/-- Instance of C9: `sampleTimer` saved and loaded on `refHost`. -/
theorem saveData_loadData_roundtrip_witness :
    1 ≤ sampleTimer.sessionCount ∧
    refHost.jsonParse (refHost.jsonStringify (saveRecord refHost sampleTimer)) =
      some (saveRecord refHost sampleTimer) ∧
    refHost.jsonStringify (saveRecord refHost sampleTimer) ≠ "" ∧
    loadData refHost (saveData refHost sampleTimer) = .ok (Stats.ofTimer sampleTimer) ∧
    loadData refHost (PomodoroProTimer.constructor (saveData refHost sampleTimer).localStorage) =
      .ok (Stats.ofTimer sampleTimer) :=
  ⟨by decide, rfl, by decide,
    saveData_loadData_roundtrip refHost sampleTimer (by decide) (by decide) (by decide)
      (by decide) rfl (by decide)⟩

/-- Claim C10, amended to what the code does. With the key absent, or an empty string
stored, `loadData` returns and leaves the counters as they are: the defaults
`sessionCount = 1`, `completedSessions = totalTimeSpent = streakCount = 0` in a
newly constructed timer. Stored text that parses to a number, a string, a
boolean or an array has no `lastSaveDate` and yields the same defaults. Stored
text that `JSON.parse` rejects is not treated as absent: `loadData` throws the
`SyntaxError`; and for the stored text `null` it throws a `TypeError`. -/
theorem loadData_absent_or_unparseable (h : Host) (t : PomodoroProTimer) :
    (∀ store : Option String,
      Stats.ofTimer (PomodoroProTimer.constructor store) =
        { completedSessions := .num 0
          totalTimeSpent := .num 0
          streakCount := .num 0
          sessionCount := .num 1 }) ∧
    (t.localStorage = none → loadData h t = .ok (Stats.ofTimer t)) ∧
    (t.localStorage = some "" → loadData h t = .ok (Stats.ofTimer t)) ∧
    (∀ (s : String) (data : JSVal), t.localStorage = some s → s ≠ "" →
      h.jsonParse s = some data →
      (∀ fields, data ≠ .obj fields) → data ≠ .null → data ≠ .undefined →
      loadData h t = .ok { completedSessions := .num 0
                           totalTimeSpent := .num 0
                           streakCount := .num 0
                           sessionCount := .num 1 }) ∧
    (∀ s : String, t.localStorage = some s → s ≠ "" → h.jsonParse s = none →
      loadData h t = .error .syntaxError) ∧
    (∀ s : String, t.localStorage = some s → s ≠ "" → h.jsonParse s = some .null →
      loadData h t = .error .typeError) := by
  refine ⟨fun store => rfl, fun hs => ?_, fun hs => ?_, fun s data hs hne hp ho hn hu => ?_,
    fun s hs hne hp => ?_, fun s hs hne hp => ?_⟩
  · simp only [loadData, hs]
  · simp only [loadData, hs, if_true]
  · rw [loadData_of_parse h t s data hs hne hp]
    cases data with
    | undefined => exact absurd rfl hu
    | null => exact absurd rfl hn
    | obj fields => exact absurd rfl (ho fields)
    | bool b => rfl
    | num n => rfl
    | str x => rfl
    | arr items => rfl
  · simp only [loadData, hs, hne, hp, if_false]
  · rw [loadData_of_parse h t s .null hs hne hp]
    rfl

/-- Instance of the amended C10: text that is not JSON, read by `refHost`. -/
theorem loadData_absent_or_unparseable_witness :
    (PomodoroProTimer.constructor (some "not json")).localStorage = some "not json" ∧
    "not json" ≠ "" ∧ refHost.jsonParse "not json" = none ∧
    loadData refHost (PomodoroProTimer.constructor (some "not json")) = .error .syntaxError :=
  ⟨rfl, by decide, rfl,
    (loadData_absent_or_unparseable refHost
      (PomodoroProTimer.constructor (some "not json"))).2.2.2.2.1 "not json" rfl (by decide) rfl⟩

/-- Counterexample to C10 as stated: with the text `not json` stored, which
`JSON.parse` rejects, `loadData` throws a `SyntaxError`, whereas with the key
absent it returns the defaults. -/
theorem loadData_unparseable_counterexample :
    refHost.jsonParse "not json" = none ∧
    loadData refHost (PomodoroProTimer.constructor none) =
      .ok { completedSessions := .num 0
            totalTimeSpent := .num 0
            streakCount := .num 0
            sessionCount := .num 1 } ∧
    loadData refHost (PomodoroProTimer.constructor (some "not json")) = .error .syntaxError ∧
    loadData refHost (PomodoroProTimer.constructor (some "not json")) ≠
      loadData refHost (PomodoroProTimer.constructor none) :=
  ⟨rfl, rfl, rfl, fun hc => Except.noConfusion
    (hc : (Except.error JSError.syntaxError : Except JSError Stats) =
      Except.ok (Stats.ofTimer (PomodoroProTimer.constructor none)))⟩

/-- The branch of `loadData` for a record dated today: every counter is
`data[key] || fallback`. -/
theorem loadData_of_today (h : Host) (t : PomodoroProTimer) (savedData : String)
    (fields : List (String × JSVal))
    (hs : t.localStorage = some savedData) (hne : savedData ≠ "")
    (hp : h.jsonParse savedData = some (.obj fields))
    (hd : fields.lookup "lastSaveDate" = some (.str h.today)) :
    loadData h t =
      .ok { completedSessions := restoredField fields "completedSessions" (.num 0)
            totalTimeSpent := restoredField fields "totalTimeSpent" (.num 0)
            streakCount := restoredField fields "streakCount" (.num 0)
            sessionCount := restoredField fields "sessionCount" (.num 1) } := by
  rw [loadData_of_parse h t savedData _ hs hne hp]
  simp only [JSVal.getProp, hd, Option.getD_some]
  have hf : (JSVal.str h.today).strictNeStr h.today = false := by
    simp [JSVal.strictNeStr]
  show (if (JSVal.str h.today).strictNeStr h.today = true then _ else _) = _
  rw [hf]
  rfl

/-- How `data[key] || fallback` treats a field: absent or falsy gives the
fallback, truthy gives the stored value. -/
theorem restoredField_cases (fields : List (String × JSVal)) (key : String) (fallback : JSVal) :
    (fields.lookup key = none → restoredField fields key fallback = fallback) ∧
    (∀ v : JSVal, fields.lookup key = some v → v.truthy = false →
      restoredField fields key fallback = fallback) ∧
    (∀ v : JSVal, fields.lookup key = some v → v.truthy = true →
      restoredField fields key fallback = v) := by
  refine ⟨fun hn => ?_, fun v hv hf => ?_, fun v hv ht => ?_⟩
  · simp [restoredField, hn, JSVal.or, JSVal.truthy]
  · simp [restoredField, hv, JSVal.or, hf]
  · simp [restoredField, hv, JSVal.or, ht]

/-- Claim C11, amended to what the code does. For every stored text that parses
to a record whose `lastSaveDate` is today, `loadData` returns and each counter
is `data[key] || fallback`, the fallback being 0 for `completedSessions`,
`totalTimeSpent` and `streakCount` and 1 for `sessionCount`. So a counter is
restored verbatim when it is present and truthy: a non-negative integer (for
`sessionCount` a positive one) comes back as stored, and so does any other
non-zero number, non-empty string, `true`, array or object. It becomes the
fallback when it is absent or falsy (`0`, the empty string, `false`, `null`). -/
theorem loadData_same_day_fields (h : Host) (t : PomodoroProTimer) (savedData : String)
    (fields : List (String × JSVal))
    (hs : t.localStorage = some savedData) (hne : savedData ≠ "")
    (hp : h.jsonParse savedData = some (.obj fields))
    (hd : fields.lookup "lastSaveDate" = some (.str h.today)) :
    loadData h t =
      .ok { completedSessions := restoredField fields "completedSessions" (.num 0)
            totalTimeSpent := restoredField fields "totalTimeSpent" (.num 0)
            streakCount := restoredField fields "streakCount" (.num 0)
            sessionCount := restoredField fields "sessionCount" (.num 1) } ∧
    (∀ (key : String) (n : Int), fields.lookup key = some (.num n) → 0 ≤ n →
      restoredField fields key (.num 0) = .num n) ∧
    (∀ (key : String) (n : Int), fields.lookup key = some (.num n) → 1 ≤ n →
      restoredField fields key (.num 1) = .num n) ∧
    (∀ (key : String) (fallback : JSVal), fields.lookup key = none →
      restoredField fields key fallback = fallback) ∧
    (∀ (key : String) (fallback v : JSVal), fields.lookup key = some v → v.truthy = false →
      restoredField fields key fallback = fallback) ∧
    (∀ (key : String) (fallback v : JSVal), fields.lookup key = some v → v.truthy = true →
      restoredField fields key fallback = v) := by
  refine ⟨loadData_of_today h t savedData fields hs hne hp hd, fun key n hk _ => ?_,
    fun key n hk hn => ?_, fun key fb hk => (restoredField_cases fields key fb).1 hk,
    fun key fb v hk hf => (restoredField_cases fields key fb).2.1 v hk hf,
    fun key fb v hk ht => (restoredField_cases fields key fb).2.2 v hk ht⟩
  · simp only [restoredField, hk, Option.getD_some]
    exact or_num_zero n
  · simp only [restoredField, hk, Option.getD_some]
    exact or_num_one (by omega)

/-- Instance of the amended C11: `tamperedRecord` read by `refHost` on its day. -/
theorem loadData_same_day_fields_witness :
    (PomodoroProTimer.constructor (some tamperedRecord)).localStorage = some tamperedRecord ∧
    tamperedRecord ≠ "" ∧
    refHost.jsonParse tamperedRecord =
      some (.obj [("completedSessions", .num (-3)), ("totalTimeSpent", .num 4500),
        ("streakCount", .num 3), ("sessionCount", .str "abc"),
        ("lastSaveDate", .str "Fri Nov 06 2026")]) ∧
    loadData refHost (PomodoroProTimer.constructor (some tamperedRecord)) =
      .ok { completedSessions :=
              restoredField [("completedSessions", .num (-3)), ("totalTimeSpent", .num 4500),
                ("streakCount", .num 3), ("sessionCount", .str "abc"),
                ("lastSaveDate", .str "Fri Nov 06 2026")] "completedSessions" (.num 0)
            totalTimeSpent :=
              restoredField [("completedSessions", .num (-3)), ("totalTimeSpent", .num 4500),
                ("streakCount", .num 3), ("sessionCount", .str "abc"),
                ("lastSaveDate", .str "Fri Nov 06 2026")] "totalTimeSpent" (.num 0)
            streakCount :=
              restoredField [("completedSessions", .num (-3)), ("totalTimeSpent", .num 4500),
                ("streakCount", .num 3), ("sessionCount", .str "abc"),
                ("lastSaveDate", .str "Fri Nov 06 2026")] "streakCount" (.num 0)
            sessionCount :=
              restoredField [("completedSessions", .num (-3)), ("totalTimeSpent", .num 4500),
                ("streakCount", .num 3), ("sessionCount", .str "abc"),
                ("lastSaveDate", .str "Fri Nov 06 2026")] "sessionCount" (.num 1) } :=
  ⟨rfl, by decide, rfl,
    (loadData_same_day_fields refHost (PomodoroProTimer.constructor (some tamperedRecord))
      tamperedRecord
      [("completedSessions", .num (-3)), ("totalTimeSpent", .num 4500),
        ("streakCount", .num 3), ("sessionCount", .str "abc"),
        ("lastSaveDate", .str "Fri Nov 06 2026")]
      rfl (by decide) rfl rfl).1⟩

/-- Counterexample to C11 as stated: in a record dated today, the malformed
values `completedSessions = -3` and `sessionCount = "abc"` are present, and
`loadData` restores them as they are instead of 0 and 1. -/
theorem loadData_malformed_counterexample :
    refHost.jsonParse tamperedRecord =
      some (.obj [("completedSessions", .num (-3)), ("totalTimeSpent", .num 4500),
        ("streakCount", .num 3), ("sessionCount", .str "abc"),
        ("lastSaveDate", .str refHost.today)]) ∧
    loadData refHost (PomodoroProTimer.constructor (some tamperedRecord)) =
      .ok { completedSessions := .num (-3)
            totalTimeSpent := .num 4500
            streakCount := .num 3
            sessionCount := .str "abc" } ∧
    loadData refHost (PomodoroProTimer.constructor (some tamperedRecord)) ≠
      .ok { completedSessions := .num 0
            totalTimeSpent := .num 4500
            streakCount := .num 3
            sessionCount := .num 1 } :=
  ⟨rfl, rfl, fun hc =>
    absurd
      (JSVal.num.inj (Stats.mk.inj (Except.ok.inj
        (hc : (Except.ok { completedSessions := .num (-3)
                           totalTimeSpent := .num 4500
                           streakCount := .num 3
                           sessionCount := .str "abc" } : Except JSError Stats) =
          .ok { completedSessions := .num 0
                totalTimeSpent := .num 4500
                streakCount := .num 3
                sessionCount := .num 1 }))).1)
      (by decide)⟩

/-- No command, tick or completion touches `this.durations`. -/
theorem act_durations (h : Host) (t : PomodoroProTimer) (a : Action) :
    (act h t a).durations = t.durations := by
  cases a with
  | completeSession => exact (completeSession_summary h t).2.2.2.1
  | command c =>
    show (step h t c).durations = t.durations
    cases c with
    | toggleTimer =>
      show (toggleTimer t).durations = t.durations
      unfold toggleTimer
      cases hr : t.isRunning <;> simp [pauseTimer, clearInterval, startTimer, setInterval]
    | resetTimer => simp [step, resetTimer_eq]
    | setMode m => simp [step, setMode_eq]
    | toggleMode =>
      simp only [step, toggleMode]
      split <;> simp [setMode_eq]
    | tick i =>
      simp only [step]
      by_cases hi : i ∈ t.intervals
      · by_cases hl : 1 < t.timeLeft
        · rw [tick_of_lt h i t hi hl]
        · rw [tick_of_le h i t hi (by omega)]
          exact (completeSession_summary h _).2.2.2.1
      · rw [tick_of_not_mem h i t hi]
    | periodicSave => rfl

/-- A completion keeps the counters redundant. -/
theorem countersRedundant_completeSession (h : Host) {t : PomodoroProTimer}
    (ht : countersRedundant t) : countersRedundant (completeSession h t) := by
  obtain ⟨h1, h2, h3⟩ := ht
  by_cases hm : t.currentMode = .focus
  · rw [completeSession_focus_eq h t hm]
    refine ⟨?_, ?_, ?_⟩
    · show t.streakCount + 1 = t.completedSessions + 1
      rw [h1]
    · show t.sessionCount + 1 = t.completedSessions + 1 + 1
      rw [h2]
    · show t.totalTimeSpent + t.durations.focus = (t.completedSessions + 1) * t.durations.focus
      rw [h3]
      ring
  · rw [completeSession_rest_eq h t hm]
    exact ⟨h1, h2, h3⟩

/-- Every action keeps the counters redundant. -/
theorem countersRedundant_act (h : Host) (a : Action) {t : PomodoroProTimer}
    (ht : countersRedundant t) : countersRedundant (act h t a) := by
  cases a with
  | completeSession => exact countersRedundant_completeSession h ht
  | command c =>
    have hdur : (step h t c).durations = t.durations := act_durations h t (.command c)
    obtain ⟨h1, h2, h3⟩ := ht
    show countersRedundant (step h t c)
    unfold countersRedundant
    rw [hdur]
    rcases step_cases h t c with ⟨_, _, hk⟩ | ⟨_, _, _, k1, k2, k3, k4, _⟩ | ⟨_, _, _, hk, _⟩
    · simp only [counters, Prod.mk.injEq] at hk
      obtain ⟨e1, e2, e3, e4⟩ := hk
      rw [e1, e2, e3, e4]
      exact ⟨h1, h2, h3⟩
    · rw [k1, k2, k3, k4, h1, h2, h3]
      refine ⟨rfl, rfl, ?_⟩
      ring
    · simp only [counters, Prod.mk.injEq] at hk
      obtain ⟨e1, e2, e3, e4⟩ := hk
      rw [e1, e2, e3, e4]
      exact ⟨h1, h2, h3⟩

theorem countersRedundant_runActions (h : Host) (actions : List Action) :
    ∀ {t : PomodoroProTimer}, countersRedundant t →
      countersRedundant (runActions h t actions) ∧
      (runActions h t actions).durations = t.durations := by
  induction actions with
  | nil => intro t ht; exact ⟨ht, rfl⟩
  | cons a as ih =>
    intro t ht
    have := ih (countersRedundant_act h a ht)
    exact ⟨this.1, by rw [show runActions h t (a :: as) = runActions h (act h t a) as from rfl,
      this.2, act_durations]⟩

/-- A record of another day makes `loadData` return the default counters. -/
theorem loadData_of_other_day (h : Host) (t : PomodoroProTimer) (savedData : String)
    (fields : List (String × JSVal))
    (hs : t.localStorage = some savedData) (hne : savedData ≠ "")
    (hp : h.jsonParse savedData = some (.obj fields))
    (hd : fields.lookup "lastSaveDate" ≠ some (.str h.today)) :
    loadData h t = .ok { completedSessions := .num 0
                         totalTimeSpent := .num 0
                         streakCount := .num 0
                         sessionCount := .num 1 } := by
  rw [loadData_of_parse h t savedData _ hs hne hp]
  have hv : ((fields.lookup "lastSaveDate").getD .undefined) ≠ .str h.today := by
    intro hc
    cases hl : fields.lookup "lastSaveDate" with
    | none => rw [hl] at hc; cases hc
    | some v =>
      rw [hl] at hc hd
      exact hd (by rw [← hc]; rfl)
  have hb := strictNeStr_of_ne _ _ hv
  simp only [JSVal.getProp]
  show (if ((fields.lookup "lastSaveDate").getD .undefined).strictNeStr h.today = true then _
    else _) = _
  rw [if_pos hb]
  rfl

/-- Claim C12. For every state, running or idle and whatever `timeLeft`,
`resetTimer` yields `isRunning = false` and
`timeLeft = totalTime = durations[currentMode]`, leaves `currentMode`, the
durations and the four counters unchanged, clears the timer's interval, and
emits the reset sound after redrawing the progress ring; called while idle it
does the same, so the reset sound is emitted and `timeLeft` is reset. -/
theorem resetTimer_resets_interval (t : PomodoroProTimer) :
    (resetTimer t).isRunning = false ∧
    (resetTimer t).timeLeft = t.durations.get t.currentMode ∧
    (resetTimer t).totalTime = t.durations.get t.currentMode ∧
    (resetTimer t).currentMode = t.currentMode ∧
    (resetTimer t).durations = t.durations ∧
    counters (resetTimer t) = counters t ∧
    (resetTimer t).intervals = removeHandle t.timerInterval t.intervals ∧
    (resetTimer t).effects =
      t.effects ++ [.progress (t.durations.get t.currentMode) (t.durations.get t.currentMode),
        .resetSound] ∧
    (t.isRunning = false →
      (resetTimer t).effects.getLast? = some .resetSound ∧
      (resetTimer t).effects.count .resetSound = t.effects.count .resetSound + 1 ∧
      (resetTimer t).timeLeft = t.durations.get t.currentMode) := by
  rw [resetTimer_eq]
  refine ⟨rfl, rfl, rfl, rfl, rfl, rfl, rfl, rfl, fun _ => ⟨?_, ?_, rfl⟩⟩
  · simp
  · simp [List.count_append]

/-- Instance of C12: reset of the paused timer, which stands at 900 of 1500 seconds. -/
theorem resetTimer_resets_interval_witness :
    pausedTimer.isRunning = false ∧ pausedTimer.timeLeft = 900 ∧
    (resetTimer pausedTimer).effects.getLast? = some .resetSound ∧
    (resetTimer pausedTimer).effects.count .resetSound =
      pausedTimer.effects.count .resetSound + 1 ∧
    (resetTimer pausedTimer).timeLeft = pausedTimer.durations.get pausedTimer.currentMode ∧
    pausedTimer.durations.get pausedTimer.currentMode = 1500 :=
  ⟨rfl, rfl, ((resetTimer_resets_interval pausedTimer).2.2.2.2.2.2.2.2 rfl).1,
    ((resetTimer_resets_interval pausedTimer).2.2.2.2.2.2.2.2 rfl).2.1,
    ((resetTimer_resets_interval pausedTimer).2.2.2.2.2.2.2.2 rfl).2.2, rfl⟩

/-- Claim C13. Redundant counters. In every state reached from the constructed
timer with its default counters (`sessionCount = 1`, the others 0: what
`loadData` leaves when nothing is stored and what it sets for a stored record
of another day) by any sequence of `toggleTimer`,
`resetTimer`, `setMode`, `toggleMode`, ticks, periodic saves and completions,
`streakCount = completedSessions`, `sessionCount = completedSessions + 1` and
`totalTimeSpent = completedSessions * durations.focus`, where
`durations.focus` is still 1500. -/
theorem counters_redundant (h : Host) (store : Option String) (actions : List Action) :
    (runActions h (PomodoroProTimer.constructor store) actions).streakCount =
      (runActions h (PomodoroProTimer.constructor store) actions).completedSessions ∧
    (runActions h (PomodoroProTimer.constructor store) actions).sessionCount =
      (runActions h (PomodoroProTimer.constructor store) actions).completedSessions + 1 ∧
    (runActions h (PomodoroProTimer.constructor store) actions).totalTimeSpent =
      (runActions h (PomodoroProTimer.constructor store) actions).completedSessions *
        (runActions h (PomodoroProTimer.constructor store) actions).durations.focus ∧
    (runActions h (PomodoroProTimer.constructor store) actions).durations.focus = 1500 ∧
    counters (PomodoroProTimer.constructor store) = (1, 0, 0, 0) ∧
    loadData h (PomodoroProTimer.constructor none) =
      .ok (Stats.ofTimer (PomodoroProTimer.constructor none)) ∧
    (∀ (savedData : String) (fields : List (String × JSVal)),
      store = some savedData → savedData ≠ "" →
      h.jsonParse savedData = some (.obj fields) →
      fields.lookup "lastSaveDate" ≠ some (.str h.today) →
      loadData h (PomodoroProTimer.constructor store) =
        .ok (Stats.ofTimer (PomodoroProTimer.constructor store))) := by
  have h0 : countersRedundant (PomodoroProTimer.constructor store) := by
    refine ⟨rfl, rfl, ?_⟩
    show (0 : Int) = 0 * (25 * 60)
    decide
  obtain ⟨⟨r1, r2, r3⟩, rd⟩ := countersRedundant_runActions h actions h0
  refine ⟨r1, r2, r3, ?_, rfl, rfl, fun savedData fields hs hne hp hd => ?_⟩
  · rw [rd]
    rfl
  · rw [loadData_of_other_day h _ savedData fields (by rw [hs]; rfl) hne hp hd]
    rfl

/-- Instance of C13: the timer constructed over yesterday's record starts from
the default counters, and they are redundant after a focus completion. -/
theorem counters_redundant_witness :
    yesterdayRecord ≠ "" ∧
    refHost.jsonParse yesterdayRecord =
      some (.obj [("completedSessions", .num 7), ("totalTimeSpent", .num 10500),
        ("streakCount", .num 7), ("sessionCount", .num 8),
        ("lastSaveDate", .str "Thu Nov 05 2026")]) ∧
    loadData refHost (PomodoroProTimer.constructor (some yesterdayRecord)) =
      .ok (Stats.ofTimer (PomodoroProTimer.constructor (some yesterdayRecord))) ∧
    counters (runActions refHost (PomodoroProTimer.constructor (some yesterdayRecord))
      [.command .toggleTimer, .completeSession]) = (2, 1, 1500, 1) :=
  ⟨by decide, rfl,
    (counters_redundant refHost (some yesterdayRecord) []).2.2.2.2.2.2 yesterdayRecord
      [("completedSessions", .num 7), ("totalTimeSpent", .num 10500),
        ("streakCount", .num 7), ("sessionCount", .num 8),
        ("lastSaveDate", .str "Thu Nov 05 2026")]
      rfl (by decide) rfl
      (fun hc => absurd
        (JSVal.str.inj (Option.some.inj
          (hc : some (JSVal.str "Thu Nov 05 2026") = some (JSVal.str "Fri Nov 06 2026"))))
        (by decide)),
    by decide⟩

end Pomodoro
